import Mathlib

/-!
Verification of the `lammps-reaper` validation pipeline and generation loop.

The Python sources are shallowly embedded as executable Lean definitions:
strings are processed as `List Char`, Python floats parsed from decimal
literals are represented exactly as rational fractions (`Frac`), IEEE special values
are represented by an explicit `PFloat` type, the filesystem is a finite
map from path strings to file contents, and the external LLM / engine
collaborators are parameters of the embedded functions.
-/

namespace Reaper

/-- ASCII whitespace, as recognised by Python `str.strip` / `str.split`. -/
def pyIsSpace (c : Char) : Bool :=
  c = ' ' || c = '\t' || c = '\n' || c = '\r' || c = '\x0b' || c = '\x0c'

/-- Python `str.strip()` on a character list. -/
def pyStrip (l : List Char) : List Char :=
  ((l.dropWhile pyIsSpace).reverse.dropWhile pyIsSpace).reverse

/-- Helper for `pySplitWs`: walk the characters, `acc` holds the current
token reversed. -/
def pySplitWsAux : List Char → List Char → List (List Char)
  | [], acc => if acc.isEmpty then [] else [acc.reverse]
  | c :: cs, acc =>
    if pyIsSpace c then
      if acc.isEmpty then pySplitWsAux cs [] else acc.reverse :: pySplitWsAux cs []
    else pySplitWsAux cs (c :: acc)

/-- Python `str.split()` (no argument): split on whitespace runs, no empties. -/
def pySplitWs (l : List Char) : List (List Char) :=
  pySplitWsAux l []

/-- Helper for `pySplitOn`: split at every occurrence of `sep`. -/
def pySplitOnAux (sep : Char) : List Char → List Char → List (List Char)
  | [], acc => [acc.reverse]
  | c :: cs, acc =>
    if c = sep then acc.reverse :: pySplitOnAux sep cs [] else pySplitOnAux sep cs (c :: acc)

/-- Python `str.split(sep)` for a one-character separator: empties are kept
and the result is always non-empty. -/
def pySplitOn (sep : Char) (l : List Char) : List (List Char) :=
  pySplitOnAux sep l []

/-- ASCII lower-casing of one character (the decks are ASCII). -/
def lowerChar : Char → Char
  | 'A' => 'a' | 'B' => 'b' | 'C' => 'c' | 'D' => 'd' | 'E' => 'e' | 'F' => 'f'
  | 'G' => 'g' | 'H' => 'h' | 'I' => 'i' | 'J' => 'j' | 'K' => 'k' | 'L' => 'l'
  | 'M' => 'm' | 'N' => 'n' | 'O' => 'o' | 'P' => 'p' | 'Q' => 'q' | 'R' => 'r'
  | 'S' => 's' | 'T' => 't' | 'U' => 'u' | 'V' => 'v' | 'W' => 'w' | 'X' => 'x'
  | 'Y' => 'y' | 'Z' => 'z'
  | c => c

/-- ASCII lower-casing of a character list. -/
def lowerList (l : List Char) : List Char := l.map lowerChar

/-- Decimal digit test. -/
def isDigitC (c : Char) : Bool := '0' ≤ c && c ≤ '9'

/-- Regex word character `[a-zA-Z0-9_]`. -/
def isWordChar (c : Char) : Bool :=
  ('a' ≤ c && c ≤ 'z') || ('A' ≤ c && c ≤ 'Z') || isDigitC c || c = '_'

/-- Upper-case letter `[A-Z]`. -/
def isUpperAZ (c : Char) : Bool := 'A' ≤ c && c ≤ 'Z'

/-- First character of a placeholder name: `[A-Z_]`. -/
def isNameStart (c : Char) : Bool := isUpperAZ c || c = '_'

/-- Later character of a placeholder name: `[A-Z0-9_]`. -/
def isNameChar (c : Char) : Bool := isUpperAZ c || isDigitC c || c = '_'

/-- Decimal digit character, by value modulo ten. -/
def digitChar (n : Nat) : Char :=
  match n % 10 with
  | 0 => '0' | 1 => '1' | 2 => '2' | 3 => '3' | 4 => '4'
  | 5 => '5' | 6 => '6' | 7 => '7' | 8 => '8' | _ => '9'

/-- Decimal digits of a natural number, most significant first, prepended
to `acc`; the fuel argument (any bound on the digit count, `n` itself
suffices) keeps the recursion structural so that the kernel can evaluate
it. -/
def natToStrGo : Nat → Nat → List Char → List Char
  | 0, n, acc => digitChar n :: acc
  | fuel + 1, n, acc =>
    if n < 10 then digitChar n :: acc else natToStrGo fuel (n / 10) (digitChar n :: acc)

/-- Map an indexed per-line function over the lines, numbering from `n`
(the shape of `enumerate(lines, start=n)` loops). -/
def overLines (f : Nat → List Char → List α) : Nat → List (List Char) → List α
  | _, [] => []
  | n, l :: ls => f n l ++ overLines f (n + 1) ls

/-- Decimal rendering of a natural number. -/
def natToStr (n : Nat) : String := String.mk (natToStrGo n n [])

/-- Substring test, Python `pat in s`. -/
def containsSub (s pat : String) : Bool := decide (pat.data <:+: s.data)

/-- Case-insensitive prefix test on character lists. -/
def startsWithCI (pat l : List Char) : Bool :=
  lowerList (l.take pat.length) = pat

/-! ## L0: placeholder checks (`src/validation/l0_placeholders.py`) -/

/-- Match the regex `\{\{([A-Z_][A-Z0-9_]*)\}\}` at the head of the list.
On success returns the matched text and the remaining characters. -/
def matchDoubleBraceAt : List Char → Option (List Char × List Char)
  | '\x7b' :: '\x7b' :: c :: rest =>
    if isNameStart c then
      match (rest.span fun d => isNameChar d) with
      | (nm, '\x7d' :: '\x7d' :: rest') =>
        some ('\x7b' :: '\x7b' :: c :: (nm ++ ['\x7d', '\x7d']), rest')
      | _ => none
    else none
  | _ => none

/-- Match the regex `<([A-Z_][A-Z0-9_]*)>` at the head of the list. -/
def matchAngleAt : List Char → Option (List Char × List Char)
  | '<' :: c :: rest =>
    if isNameStart c then
      match (rest.span fun d => isNameChar d) with
      | (nm, '>' :: rest') => some ('<' :: c :: (nm ++ ['>']), rest')
      | _ => none
    else none
  | _ => none

/-- `re.finditer` core: try the matcher at every position, left to right,
skipping over matched text (non-overlapping matches).  The fuel argument
(any bound on the list length) keeps the recursion structural. -/
def scanGo (m : List Char → Option (List Char × List Char)) :
    Nat → List Char → List (List Char)
  | 0, _ => []
  | fuel + 1, l =>
    match l with
    | [] => []
    | c :: cs =>
      match m (c :: cs) with
      | some (tok, rest) =>
        if rest.length < cs.length + 1 then tok :: scanGo m fuel rest
        else tok :: scanGo m fuel cs
      | none => scanGo m fuel cs

/-- `re.finditer` over one line. -/
def scanMatches (m : List Char → Option (List Char × List Char))
    (l : List Char) : List (List Char) :=
  scanGo m l.length l

/-- Search for a comment marker `\bWORD` (case-insensitive) with at least one
character after it; the regex `\bWORD\s*(.+?)(?:\n|$)` then consumes to the
end of the line, so a line has at most one such match.  `prev` is the
character before the current position, for the word-boundary test. -/
def findMarkerAux (word : List Char) : Option Char → List Char → Option (List Char)
  | _, [] => none
  | prev, c :: cs =>
    let boundaryOk := match prev with | none => true | some p => !isWordChar p
    if boundaryOk && startsWithCI word (c :: cs) && decide (word.length < cs.length + 1)
    then some (c :: cs)
    else findMarkerAux word (some c) cs

/-- The unique match of `\bWORD\s*(.+?)(?:\n|$)` (ignore-case) in a line. -/
def findMarker (word : List Char) (line : List Char) : Option (List Char) :=
  findMarkerAux word none line

/-- All placeholder hits in one line, in source pattern order:
double-brace, angle-bracket, `TODO:`, `FIXME:`, `XXX:`. -/
def linePlaceholders (line : List Char) : List (String × String) :=
  ((scanMatches matchDoubleBraceAt line).map fun t => (String.mk t, "double_brace"))
  ++ ((scanMatches matchAngleAt line).map fun t => (String.mk t, "angle_bracket"))
  ++ (match findMarker "todo:".data line with
      | some t => [(String.mk t, "todo")] | none => [])
  ++ (match findMarker "fixme:".data line with
      | some t => [(String.mk t, "fixme")] | none => [])
  ++ (match findMarker "xxx:".data line with
      | some t => [(String.mk t, "xxx")] | none => [])

/-- `_find_placeholders`: all hits with their 1-based line numbers. -/
def findPlaceholders (content : String) : List (String × String × Nat) :=
  overLines (fun n line => (linePlaceholders line).map fun (t, ty) => (t, ty, n))
    1 (pySplitOn '\n' content.data)

/-- Result record of L0 validation (`schemas.L0Result`). -/
structure L0Result where
  passed : Bool
  placeholders_found : List String := []
  unresolved_count : Nat := 0
  details : List String := []
  deriving Repr, DecidableEq

/-- Is this hit a blocking template placeholder? -/
def isTemplateHit (p : String × String × Nat) : Bool :=
  p.2.1 = "double_brace" || p.2.1 = "angle_bracket"

/-- Is this hit an informational marker? -/
def isMarkerHit (p : String × String × Nat) : Bool :=
  p.2.1 = "todo" || p.2.1 = "fixme" || p.2.1 = "xxx"

/-- Upper-cased marker name used in the detail line. -/
def markerUpper (ty : String) : String :=
  if ty = "todo" then "TODO" else if ty = "fixme" then "FIXME" else "XXX"

/-- `validate_l0`: blocking template placeholders fail validation, marker
comments are informational only. -/
def validate_l0 (content : String) : L0Result :=
  let placeholders := findPlaceholders content
  let template_placeholders := placeholders.filter isTemplateHit
  let markers := placeholders.filter isMarkerHit
  let details :=
    (template_placeholders.map fun (t, _, n) =>
      "Line " ++ natToStr n ++ ": Unresolved placeholder " ++ t)
    ++ (markers.map fun (t, ty, n) =>
      "Line " ++ natToStr n ++ ": " ++ markerUpper ty ++ " marker found: " ++ t)
  { passed := template_placeholders.length == 0
    placeholders_found :=
      template_placeholders.map (·.1) ++ markers.map (·.1)
    unresolved_count := template_placeholders.length
    details := details }

/-! ## L1: syntax + physics checks (`src/validation/l1_syntax.py`) -/

/-- Result record of L1 validation (`schemas.L1Result`). -/
structure L1Result where
  passed : Bool
  syntax_errors : List String := []
  physics_warnings : List String := []
  line_numbers : List Nat := []
  details : List String := []
  deriving Repr, DecidableEq

/-- The valid unit systems (`VALID_UNITS`). -/
def VALID_UNITS : List String :=
  ["lj", "real", "metal", "si", "cgs", "electron", "micro", "nano"]

/-- The valid atom styles (`VALID_ATOM_STYLES`). -/
def VALID_ATOM_STYLES : List String :=
  ["atomic", "angle", "bond", "charge", "dipole", "dpd", "edpd", "mdpd",
   "tdpd", "electron", "ellipsoid", "full", "line", "meso", "molecular",
   "peri", "smd", "sphere", "spin", "template", "tri", "wavepacket", "hybrid"]

/-- Exact rational values as integer fractions with positive denominator
(not necessarily reduced); unlike Mathlib rationals, every operation used
here reduces in the kernel, so concrete runs can be checked by `decide`. -/
structure Frac where
  num : Int
  den : Nat
  deriving Repr, DecidableEq

/-- Zero. -/
def Frac.zero : Frac := ⟨0, 1⟩

/-- `a < b` (denominators positive). -/
def Frac.lt (a b : Frac) : Bool := a.num * (b.den : Int) < b.num * (a.den : Int)

/-- Absolute value. -/
def Frac.abs (a : Frac) : Frac := ⟨|a.num|, a.den⟩

/-- Subtraction. -/
def Frac.sub (a b : Frac) : Frac := ⟨a.num * b.den - b.num * a.den, a.den * b.den⟩

/-- Semantic zero test. -/
def Frac.isZero (a : Frac) : Bool := a.num = 0

/-- Semantic equality test. -/
def Frac.eqv (a b : Frac) : Bool := a.num * (b.den : Int) = b.num * (a.den : Int)

/-- Division; every use site has a semantically nonzero divisor (a zero
divisor would give denominator `0`, which is never consulted). -/
def Frac.div (a b : Frac) : Frac :=
  if 0 ≤ b.num then ⟨a.num * b.den, a.den * b.num.toNat⟩
  else ⟨-(a.num * (b.den : Int)), a.den * (-b.num).toNat⟩

/-- Multiply by a power of ten (`value * 10^e`). -/
def Frac.applyExp10 (f : Frac) (e : Int) : Frac :=
  if 0 ≤ e then ⟨f.num * ((10 : Nat) ^ e.toNat : Nat), f.den⟩
  else ⟨f.num, f.den * 10 ^ (-e).toNat⟩

/-- Timestep sane ranges per unit system (`TIMESTEP_RANGES`). -/
def timestepRanges : String → Option (Frac × Frac)
  | "lj" => some (⟨1, 10000⟩, ⟨1, 100⟩)
  | "real" => some (⟨1, 10⟩, ⟨10, 1⟩)
  | "metal" => some (⟨1, 10000⟩, ⟨1, 100⟩)
  | "si" => some (⟨1, 10 ^ 18⟩, ⟨1, 10 ^ 14⟩)
  | "cgs" => some (⟨1, 10 ^ 18⟩, ⟨1, 10 ^ 14⟩)
  | "electron" => some (⟨1, 10000⟩, ⟨1, 100⟩)
  | "micro" => some (⟨1, 10⟩, ⟨100, 1⟩)
  | "nano" => some (⟨1, 10000⟩, ⟨1, 1⟩)
  | _ => none

/-- Temperature sane ranges per unit system (`TEMPERATURE_RANGES`). -/
def temperatureRanges : String → Option (Frac × Frac)
  | "lj" => some (⟨1, 100⟩, ⟨10, 1⟩)
  | "real" => some (⟨1, 1⟩, ⟨10000, 1⟩)
  | "metal" => some (⟨1, 1⟩, ⟨10000, 1⟩)
  | "si" => some (⟨1, 1⟩, ⟨10000, 1⟩)
  | "cgs" => some (⟨1, 1⟩, ⟨10000, 1⟩)
  | "electron" => some (⟨1, 1⟩, ⟨10000, 1⟩)
  | "micro" => some (⟨1, 1⟩, ⟨10000, 1⟩)
  | "nano" => some (⟨1, 1⟩, ⟨10000, 1⟩)
  | _ => none

/-- ASCII lower-casing of a string. -/
def lowerStr (s : String) : String := String.mk (lowerList s.data)

/-- `_parse_command`: strip the inline comment, strip whitespace, split on
whitespace; the command is the lower-cased first token. -/
def parseCommand (line : List Char) : Option (String × List String) :=
  let noComment := (pySplitOn '#' line).headD []
  let stripped := pyStrip noComment
  match pySplitWs stripped with
  | [] => none
  | p :: ps => some (String.mk (lowerList p), ps.map String.mk)

/-- All `(command, args)` pairs of a deck, in line order. -/
def parsedCommands (content : String) : List (String × List String) :=
  (pySplitOn '\n' content.data).filterMap parseCommand

/-- The `commands_found` set, built by insertion as in the source. -/
def commandsFound (content : String) : String → Bool :=
  (parsedCommands content).foldl
    (fun s pc => fun k => if k = pc.1 then true else s k) (fun _ => false)

/-- The `command_args` dict, updated at every occurrence as in the source
(`command_args[cmd] = args`). -/
def commandArgs (content : String) : String → Option (List String) :=
  (parsedCommands content).foldl
    (fun f pc => fun k => if k = pc.1 then some pc.2 else f k) (fun _ => none)

/-- `_check_required_commands`: `units` and `atom_style` must be present. -/
def checkRequiredCommands (found : String → Bool) : List String :=
  (if found "units" then []
   else ["No \x27units\x27 command found - required for defining unit system"])
  ++ (if found "atom_style" then []
   else ["No \x27atom_style\x27 command found - required for defining atom properties"])

/-- `_check_structure_commands`: at least one structure command. -/
def checkStructureCommands (found : String → Bool) : List String :=
  if found "read_data" || found "read_restart" || found "create_box"
      || found "create_atoms" then []
  else ["No structure command found - need one of: create_atoms, create_box, read_data, read_restart"]

/-- `_check_pair_definitions`: warnings only. -/
def checkPairDefinitions (found : String → Bool) : List String :=
  if found "pair_style" && !found "pair_coeff" then
    ["pair_style defined but no pair_coeff found"]
  else if found "pair_coeff" && !found "pair_style" then
    ["pair_coeff defined but no pair_style found"]
  else []

/-- `_validate_units_command`. -/
def validateUnitsCommand (args : List String) : Option String :=
  match args with
  | [] => some "units command requires a unit system argument"
  | a :: _ =>
    let u := lowerStr a
    if u ∈ VALID_UNITS then none
    else some ("Unknown unit system \x27" ++ u
      ++ "\x27 - valid options: cgs, electron, lj, metal, micro, nano, real, si")

/-- `_validate_atom_style_command`. -/
def validateAtomStyleCommand (args : List String) : Option String :=
  match args with
  | [] => some "atom_style command requires a style argument"
  | a :: _ =>
    let st := lowerStr a
    if st ∈ VALID_ATOM_STYLES then none
    else some ("Unknown atom style \x27" ++ st
      ++ "\x27 - check LAMMPS documentation for valid styles")

/-- Per-line balance checks of `_check_common_syntax_errors`.  The counts
run over the whole stripped line, inline comments included.  (The
unknown-command branch of the source is a `pass` and is omitted.) -/
def lineBalanceErrors (stripped : List Char) : List String :=
  (if (stripped.count '\x27') % 2 ≠ 0 then ["Unbalanced single quotes"] else [])
  ++ (if (stripped.count '"') % 2 ≠ 0 then ["Unbalanced double quotes"] else [])
  ++ (if stripped.count '(' ≠ stripped.count ')' then ["Unbalanced parentheses"] else [])
  ++ (if stripped.count '[' ≠ stripped.count ']' then ["Unbalanced brackets"] else [])
  ++ (if stripped.count '\x7b' ≠ stripped.count '\x7d' then ["Unbalanced braces"] else [])

/-- Should this line be skipped by `_check_common_syntax_errors`
(empty after stripping, or a full-line comment)? -/
def lineSkipped (line : List Char) : Bool :=
  (pyStrip line).isEmpty || (pyStrip line).head? = some '#'

/-- `_check_common_syntax_errors` over the whole deck. -/
def checkCommonSyntaxErrors (content : String) : List (Nat × String) :=
  overLines
    (fun n line =>
      if lineSkipped line then []
      else (lineBalanceErrors (pyStrip line)).map fun e => (n, e))
    1 (pySplitOn '\n' content.data)

/-- Characters of the regex token class `[\d.eE+-]`. -/
def numTokenChar (c : Char) : Bool :=
  isDigitC c || c = '.' || c = 'e' || c = 'E' || c = '+' || c = '-'

/-- Value of a run of decimal digit characters. -/
def digitsVal (l : List Char) : Nat :=
  l.foldl (fun a c => a * 10 + (c.toNat - 48)) 0

/-- Exponent part of a Python float literal: `(e|E)[+-]?digits`, which must
consume the whole rest of the token. -/
def pyFloatExp : List Char → Option Int
  | [] => some 0
  | c :: rest =>
    if c = 'e' || c = 'E' then
      let (sgn, r1) : Int × List Char := match rest with
        | '+' :: r => (1, r)
        | '-' :: r => (-1, r)
        | r => (1, r)
      let ds := r1.takeWhile isDigitC
      if ds.isEmpty || !(r1.dropWhile isDigitC).isEmpty then none
      else some (sgn * (digitsVal ds : Int))
    else none

/-- Python `float()` on a token drawn from `[\d.eE+-]+`: `none` models
`ValueError`.  Values are represented exactly as rationals (the source
rounds to an IEEE double; the claims under check never sit at a rounding
boundary). -/
def pyFloat (l : List Char) : Option Frac :=
  let (sgn, l1) : Int × List Char := match l with
    | '+' :: r => (1, r)
    | '-' :: r => (-1, r)
    | r => (1, r)
  let ip := l1.takeWhile isDigitC
  let r2 := l1.dropWhile isDigitC
  let (fp, r3) : List Char × List Char := match r2 with
    | '.' :: r => (r.takeWhile isDigitC, r.dropWhile isDigitC)
    | r => ([], r)
  if ip.isEmpty && fp.isEmpty then none
  else
    match pyFloatExp r3 with
    | none => none
    | some e =>
      some (Frac.applyExp10
        ⟨sgn * ((digitsVal ip * 10 ^ fp.length + digitsVal fp : Nat) : Int),
          10 ^ fp.length⟩ e)

/-- `re.match(r"timestep\s+([\d.eE+-]+)", stripped, re.IGNORECASE)`:
anchored match returning the captured token. -/
def matchTimestepLine (stripped : List Char) : Option (List Char) :=
  if startsWithCI "timestep".data stripped then
    let rest := stripped.drop 8
    if (rest.takeWhile pyIsSpace).isEmpty then none
    else
      let tok := (rest.dropWhile pyIsSpace).takeWhile numTokenChar
      if tok.isEmpty then none else some tok
  else none

/-- `_parse_timestep` over a list of lines: the first regex match wins, and a
`float()` failure on it aborts the whole scan (the source returns `None`
from inside the loop). -/
def parseTimestepLines : List (List Char) → Option Frac
  | [] => none
  | l :: ls =>
    let stripped := pyStrip l
    if stripped.head? = some '#' then parseTimestepLines ls
    else
      match matchTimestepLine stripped with
      | some tok => pyFloat tok
      | none => parseTimestepLines ls

/-- `_parse_timestep`. -/
def parseTimestep (content : String) : Option Frac :=
  parseTimestepLines (pySplitOn '\n' content.data)

/-- One case-insensitive whole-word occurrence search (`\bWORD\b`); both ends
of every searched word are regex word characters, so the boundaries reduce to
the neighbouring characters not being word characters. -/
def searchWordCI (w : List Char) : Option Char → List Char → Bool
  | _, [] => false
  | prev, c :: cs =>
    let boundaryOk := match prev with | none => true | some p => !isWordChar p
    let afterOk := match (c :: cs).drop w.length with
      | [] => true
      | d :: _ => !isWordChar d
    (boundaryOk && startsWithCI w (c :: cs) && afterOk)
      || searchWordCI w (some c) cs

/-- `re.search(r"\b(nvt|npt|langevin|temp/berendsen)\b", ..., re.IGNORECASE)`
as a Boolean. -/
def hasThermostatWord (stripped : List Char) : Bool :=
  searchWordCI "nvt".data none stripped
  || searchWordCI "npt".data none stripped
  || searchWordCI "langevin".data none stripped
  || searchWordCI "temp/berendsen".data none stripped

/-- Anchored attempt of `temp\s+([\d.eE+-]+)\s+([\d.eE+-]+)` (ignore-case);
the character classes of neighbouring pieces are disjoint, so greedy
maximal-munch is exact. -/
def matchTempPairAt (l : List Char) : Option (List Char × List Char) :=
  if startsWithCI "temp".data l then
    let r := l.drop 4
    if (r.takeWhile pyIsSpace).isEmpty then none
    else
      let r2 := r.dropWhile pyIsSpace
      let tok1 := r2.takeWhile numTokenChar
      if tok1.isEmpty then none
      else
        let r3 := r2.dropWhile numTokenChar
        if (r3.takeWhile pyIsSpace).isEmpty then none
        else
          let tok2 := (r3.dropWhile pyIsSpace).takeWhile numTokenChar
          if tok2.isEmpty then none else some (tok1, tok2)
  else none

/-- Leftmost match of the `temp <start> <end>` pattern. -/
def searchTempPair : List Char → Option (List Char × List Char)
  | [] => none
  | c :: cs =>
    match matchTempPairAt (c :: cs) with
    | some x => some x
    | none => searchTempPair cs

/-- Anchored attempt of `velocity\s+\S+\s+create\s+([\d.eE+-]+)`
(ignore-case). -/
def matchVelocityAt (l : List Char) : Option (List Char) :=
  if startsWithCI "velocity".data l then
    let r := l.drop 8
    if (r.takeWhile pyIsSpace).isEmpty then none
    else
      let r2 := r.dropWhile pyIsSpace
      let grp := r2.takeWhile (fun c => !pyIsSpace c)
      if grp.isEmpty then none
      else
        let r3 := r2.dropWhile (fun c => !pyIsSpace c)
        if (r3.takeWhile pyIsSpace).isEmpty then none
        else
          let r4 := r3.dropWhile pyIsSpace
          if startsWithCI "create".data r4 then
            let r5 := r4.drop 6
            if (r5.takeWhile pyIsSpace).isEmpty then none
            else
              let tok := (r5.dropWhile pyIsSpace).takeWhile numTokenChar
              if tok.isEmpty then none else some tok
          else none
  else none

/-- Leftmost match of the `velocity ... create <temp>` pattern. -/
def searchVelocity : List Char → Option (List Char)
  | [] => none
  | c :: cs =>
    match matchVelocityAt (c :: cs) with
    | some x => some x
    | none => searchVelocity cs

/-- Temperatures contributed by a single line of `_parse_temperatures`. -/
def lineTemperatures (n : Nat) (line : List Char) : List (Frac × Nat × String) :=
  let stripped := pyStrip line
  if stripped.head? = some '#' then []
  else
    (if hasThermostatWord stripped then
      match searchTempPair stripped with
      | some (t1, t2) =>
        match pyFloat t1, pyFloat t2 with
        | some a, some b =>
          [(a, n, "fix temperature start"), (b, n, "fix temperature end")]
        | _, _ => []
      | none => []
    else [])
    ++ (if startsWithCI "velocity".data stripped then
      match searchVelocity stripped with
      | some tok =>
        match pyFloat tok with
        | some q => [(q, n, "velocity create")]
        | none => []
      | none => []
    else [])

/-- `_parse_temperatures`. -/
def parseTemperatures (content : String) : List (Frac × Nat × String) :=
  overLines lineTemperatures 1 (pySplitOn '\n' content.data)

/-- Fractional decimal digits of `num/den` (`num < den`), `k` digits. -/
def fracDigitsGo : Nat → Nat → Nat → List Char
  | 0, _, _ => []
  | k + 1, num, den =>
    digitChar (num * 10 / den) :: fracDigitsGo k (num * 10 % den) den

/-- Drop trailing `'0'` characters. -/
def dropTrailingZeros (l : List Char) : List Char :=
  (l.reverse.dropWhile (· = '0')).reverse

/-- Decimal rendering of a rational, standing in for Python float `repr` in
formatted messages.  The claims only inspect the fixed template text around
the numbers, never their digits. -/
def fmtQ (q : Frac) : String :=
  let n := q.num.natAbs
  let ip := n / q.den
  let ftrim := dropTrailingZeros (fracDigitsGo 12 (n % q.den) q.den)
  let fpart := if ftrim.isEmpty then ['0'] else ftrim
  (if q.num < 0 then "-" else "") ++ natToStr ip ++ "." ++ String.mk fpart

/-- `_check_timestep_physics`. -/
def checkTimestepPhysics (timestep : Frac) (units : String) : List String :=
  match timestepRanges units with
  | none => []
  | some (mn, mx) =>
    if timestep.lt mn then
      ["Timestep " ++ fmtQ timestep ++ " is very small for \x27" ++ units
        ++ "\x27 units (recommended: " ++ fmtQ mn ++ " - " ++ fmtQ mx
        ++ "). This may cause slow simulations."]
    else if mx.lt timestep then
      ["Timestep " ++ fmtQ timestep ++ " is very large for \x27" ++ units
        ++ "\x27 units (recommended: " ++ fmtQ mn ++ " - " ++ fmtQ mx
        ++ "). This may cause instability."]
    else []

/-- The warning `_check_temperature_physics` emits for one parsed
temperature. -/
def temperatureWarning (mn mx : Frac) (t : Frac) (n : Nat) (ctx : String) : List String :=
  if t.lt Frac.zero then
    ["Line " ++ natToStr n ++ ": Negative temperature " ++ fmtQ t ++ " in "
      ++ ctx ++ ". Temperature must be positive."]
  else if t.lt mn then
    ["Line " ++ natToStr n ++ ": Very low temperature " ++ fmtQ t ++ " in "
      ++ ctx ++ " (typical range: " ++ fmtQ mn ++ " - " ++ fmtQ mx ++ ")."]
  else if mx.lt t then
    ["Line " ++ natToStr n ++ ": Very high temperature " ++ fmtQ t ++ " in "
      ++ ctx ++ " (typical range: " ++ fmtQ mn ++ " - " ++ fmtQ mx ++ ")."]
  else []

/-- `_check_temperature_physics`. -/
def checkTemperaturePhysics (temps : List (Frac × Nat × String)) (units : String) :
    List String :=
  match temperatureRanges units with
  | none => []
  | some (mn, mx) => temps.flatMap fun (t, n, ctx) => temperatureWarning mn mx t n ctx

/-- The active unit system of the physics pass: the lower-cased first
argument of the (last-seen) `units` command, defaulting to `lj`. -/
def activeUnits (content : String) : String :=
  match commandArgs content "units" with
  | some (a :: _) => lowerStr a
  | _ => "lj"

/-- `validate_l1`: structural checks plus physics parameter checks. -/
def validate_l1 (content : String) : L1Result :=
  let found := commandsFound content
  let cargs := commandArgs content
  let requiredErrors := checkRequiredCommands found
  let structureErrors := checkStructureCommands found
  let pairWarnings := checkPairDefinitions found
  let unitsErr : Option String :=
    match cargs "units" with
    | some args => validateUnitsCommand args
    | none => none
  let atomErr : Option String :=
    match cargs "atom_style" with
    | some args => validateAtomStyleCommand args
    | none => none
  let commonErrs := checkCommonSyntaxErrors content
  let syntax_errors :=
    requiredErrors ++ structureErrors ++ unitsErr.toList ++ atomErr.toList
    ++ (commonErrs.map fun (n, e) => "Line " ++ natToStr n ++ ": " ++ e)
  let line_numbers := commonErrs.map (·.1)
  let units := activeUnits content
  let tsWarnings :=
    match parseTimestep content with
    | some t => checkTimestepPhysics t units
    | none => []
  let tempWarnings := checkTemperaturePhysics (parseTemperatures content) units
  let physics_warnings := tsWarnings ++ tempWarnings
  let critical := physics_warnings.filter fun w => containsSub w "Negative temperature"
  let details :=
    ((requiredErrors ++ structureErrors).map fun m => "Error: " ++ m)
    ++ (pairWarnings.map fun m => "Warning: " ++ m)
    ++ ((unitsErr.toList ++ atomErr.toList).map fun m => "Error: " ++ m)
    ++ (commonErrs.map fun (n, e) => "Syntax error at line " ++ natToStr n ++ ": " ++ e)
    ++ (match parseTimestep content with
        | some _ => tsWarnings.map fun w => "Physics warning: " ++ w
        | none => ["No timestep command found, using LAMMPS default"])
    ++ (tempWarnings.map fun w => "Physics warning: " ++ w)
  { passed := (syntax_errors.length == 0) && (critical.length == 0)
    syntax_errors := syntax_errors
    physics_warnings := physics_warnings
    line_numbers := line_numbers
    details := details }

/-! ## IEEE-style float values for thermo data (`l3_physics.py`)

Thermo samples are parsed from engine output and may be `nan` or `±inf`;
finite values are represented exactly as rationals.  Comparison follows
IEEE semantics: every comparison with `nan` is false. -/

inductive PFloat where
  | nan : PFloat
  | inf (neg : Bool) : PFloat
  | fin (q : Frac) : PFloat
  deriving Repr, DecidableEq

/-- `math.isnan`. -/
def PFloat.isNan : PFloat → Bool
  | .nan => true
  | _ => false

/-- `math.isinf`. -/
def PFloat.isInf : PFloat → Bool
  | .inf _ => true
  | _ => false

/-- IEEE `<` (false whenever `nan` is involved). -/
def PFloat.lt : PFloat → PFloat → Bool
  | .nan, _ => false
  | _, .nan => false
  | .inf s₁, .inf s₂ => s₁ && !s₂
  | .inf s, .fin _ => s
  | .fin _, .inf s => !s
  | .fin a, .fin b => a.lt b

/-- Python `!=` on floats (true whenever `nan` is involved). -/
def PFloat.pyNe : PFloat → PFloat → Bool
  | .nan, _ => true
  | _, .nan => true
  | .inf s₁, .inf s₂ => s₁ ≠ s₂
  | .inf _, .fin _ => true
  | .fin _, .inf _ => true
  | .fin a, .fin b => !a.eqv b

/-- `abs`. -/
def PFloat.abs : PFloat → PFloat
  | .nan => .nan
  | .inf _ => .inf false
  | .fin q => .fin q.abs

/-- Subtraction (`inf - inf` of equal signs is `nan`). -/
def PFloat.sub : PFloat → PFloat → PFloat
  | .nan, _ => .nan
  | _, .nan => .nan
  | .inf s₁, .inf s₂ => if s₁ = s₂ then .nan else .inf s₁
  | .inf s, .fin _ => .inf s
  | .fin _, .inf s => .inf (!s)
  | .fin a, .fin b => .fin (a.sub b)

/-- Division.  The `fin _ / fin 0` and `inf / fin 0` cases raise
`ZeroDivisionError` in Python; every use below is guarded by a strictly
positive (or `!= 0`) divisor, so those cases are unreachable and mapped
to `nan`. -/
def PFloat.div : PFloat → PFloat → PFloat
  | .nan, _ => .nan
  | _, .nan => .nan
  | .inf _, .inf _ => .nan
  | .inf s, .fin q =>
    if q.isZero then .nan else if q.lt Frac.zero then .inf (!s) else .inf s
  | .fin _, .inf _ => .fin Frac.zero
  | .fin a, .fin b => if b.isZero then .nan else .fin (a.div b)

/-- Rendering for formatted messages (`nan`/`inf` or decimal digits);
stands in for Python float formatting, whose exact digits no claim
inspects. -/
def fmtP : PFloat → String
  | .nan => "nan"
  | .inf s => if s then "-inf" else "inf"
  | .fin q => fmtQ q

/-- One parsed thermo output line (`schemas.ThermoData`). -/
structure ThermoData where
  step : Int := 0
  temp : Option PFloat := none
  press : Option PFloat := none
  pe : Option PFloat := none
  ke : Option PFloat := none
  etotal : Option PFloat := none
  deriving Repr, DecidableEq

/-- Decimal rendering of an integer. -/
def intToStr (i : Int) : String :=
  (if i < 0 then "-" else "") ++ natToStr i.natAbs

/-- The per-sample warnings of `_check_thermo_sanity`, in source order;
each of these warnings also sets `passed = False`. -/
def sampleWarnings (d : ThermoData) : List String :=
  (match d.temp with
   | some t =>
     if t.isNan || t.isInf then
       ["Step " ++ intToStr d.step ++ ": Temperature is NaN/Inf - simulation exploded"]
     else if t.lt (.fin Frac.zero) then
       ["Step " ++ intToStr d.step ++ ": Negative temperature (" ++ fmtP t
         ++ ") - unphysical"]
     else if PFloat.lt (.fin ⟨1000000, 1⟩) t then
       ["Step " ++ intToStr d.step ++ ": Temperature " ++ fmtP t
         ++ " exceeds 1e+06 - explosion"]
     else []
   | none => [])
  ++ (match d.etotal with
   | some e =>
     if e.isNan || e.isInf then
       ["Step " ++ intToStr d.step ++ ": Total energy is NaN/Inf - simulation exploded"]
     else if PFloat.lt (.fin ⟨10 ^ 12, 1⟩) e.abs then
       ["Step " ++ intToStr d.step ++ ": Total energy " ++ fmtP e
         ++ " exceeds threshold - possible explosion"]
     else []
   | none => [])
  ++ (match d.pe with
   | some p =>
     if p.isNan || p.isInf then
       ["Step " ++ intToStr d.step ++ ": Potential energy is NaN/Inf - simulation exploded"]
     else []
   | none => [])
  ++ (match d.press with
   | some p =>
     if p.isNan || p.isInf then
       ["Step " ++ intToStr d.step ++ ": Pressure is NaN/Inf - simulation exploded"]
     else []
   | none => [])

/-- The temperature-ratio advisory of `_check_thermo_sanity` (warning only:
the `passed = False` line next to it is commented out in the source). -/
def ratioWarnings (thermo_data : List ThermoData) : List String :=
  if thermo_data.length ≥ 2 then
    match thermo_data.head?.bind (·.temp), thermo_data.getLast?.bind (·.temp) with
    | some ft, some lt' =>
      if PFloat.lt (.fin Frac.zero) ft then
        if PFloat.lt (.fin ⟨10, 1⟩) (lt'.div ft) then
          ["Temperature increased " ++ fmtP (lt'.div ft) ++ "x (" ++ fmtP ft
            ++ " -> " ++ fmtP lt' ++ ") - possible instability"]
        else []
      else []
    | _, _ => []
  else []

/-- The energy-drift advisory of `_check_thermo_sanity` (warning only). -/
def driftWarnings (thermo_data : List ThermoData) : List String :=
  if thermo_data.length ≥ 2 then
    match thermo_data.head?.bind (·.etotal), thermo_data.getLast?.bind (·.etotal) with
    | some fe, some le' =>
      if fe.pyNe (.fin Frac.zero) then
        let drift := ((le'.sub fe).abs).div fe.abs
        if PFloat.lt (.fin ⟨1, 10⟩) drift then
          ["Energy drift of " ++ fmtP drift ++ " detected - may indicate instability"]
        else []
      else []
    | _, _ => []
  else []

/-- `_check_thermo_sanity`: `(passed, warnings)`. -/
def checkThermoSanity (thermo_data : List ThermoData) : Bool × List String :=
  if thermo_data.isEmpty then (true, ["No thermodynamic data found in output"])
  else
    let base := thermo_data.foldl
      (fun (st : Bool × List String) d =>
        (st.1 && (sampleWarnings d).isEmpty, st.2 ++ sampleWarnings d))
      (true, [])
    let passed := base.1
    let warnings := base.2 ++ ratioWarnings thermo_data ++ driftWarnings thermo_data
    if passed && warnings.isEmpty then
      (passed, warnings ++ ["Thermodynamic sanity checks passed"])
    else (passed, warnings)

/-! ## L2/L3 engine checks: binary resolution and the skip path
(`l2_engine.py`, `l3_physics.py`)

The engine subprocess itself is external; the run continuations are
parameters.  Binary resolution is a pure function of the explicit
override, the environment variable, and filesystem existence checks
(`FsWorld`). -/

/-- The filesystem/environment facts `find_lammps_binary` consults. -/
structure FsWorld where
  pathExists : String → Bool
  pathIsFile : String → Bool
  envLammpsBinary : Option String
  home : String

/-- The fixed `LAMMPS_PATHS` list. -/
def lammpsPaths (home : String) : List String :=
  ["/home/sf2/Workspace/main/39-GPUTests/1-GPUTests/md-lammps/install/bin/lmp",
   "/usr/local/bin/lmp", "/usr/bin/lmp",
   "/usr/local/bin/lmp_serial", "/usr/bin/lmp_serial",
   "/usr/local/bin/lmp_mpi", "/usr/bin/lmp_mpi",
   "/opt/lammps/bin/lmp",
   home ++ "/lammps/build/lmp", home ++ "/lammps/src/lmp_serial"]

/-- `path.exists() and path.is_file()`. -/
def isUsableBinary (w : FsWorld) (p : String) : Bool :=
  w.pathExists p && w.pathIsFile p

/-- `find_lammps_binary`: user path, then the `LAMMPS_BINARY` environment
variable (skipped when empty, Python truthiness), then the fixed list. -/
def find_lammps_binary (w : FsWorld) (user_path : Option String) : Option String :=
  match user_path with
  | some p =>
    if isUsableBinary w p then some p else find_lammps_binary_env w
  | none => find_lammps_binary_env w
where
  find_lammps_binary_env (w : FsWorld) : Option String :=
    match w.envLammpsBinary with
    | some s =>
      if s ≠ "" && isUsableBinary w s then some s
      else (lammpsPaths w.home).find? (isUsableBinary w)
    | none => (lammpsPaths w.home).find? (isUsableBinary w)

/-- Result record of L2 validation (`schemas.L2Result`). -/
structure L2Result where
  passed : Bool
  engine_output : String := ""
  return_code : Int := 0
  execution_time : Frac := Frac.zero
  details : List String := []
  deriving Repr, DecidableEq

/-- Result record of L3 validation (`schemas.L3Result`). -/
structure L3Result where
  passed : Bool
  engine_output : String := ""
  return_code : Int := 0
  execution_time : Frac := Frac.zero
  steps_run : Nat := 0
  thermo_data : List ThermoData := []
  thermo_warnings : List String := []
  details : List String := []
  deriving Repr, DecidableEq

/-- `_create_zero_step_deck`: rewrite `run`/`minimize` lines, append
`run 0` when no `run` command existed. -/
def createZeroStepDeck (content : String) : String :=
  let lines := pySplitOn '\n' content.data
  let step : (List (List Char) × Bool) → List Char → List (List Char) × Bool :=
    fun (acc, run_found) line =>
      let stripped := pyStrip line
      if stripped.isEmpty || stripped.head? = some '#' then (acc ++ [line], run_found)
      else
        match pySplitWs stripped with
        | [] => (acc ++ [line], run_found)
        | p :: _ =>
          let cmd := lowerList p
          if cmd = "run".data then (acc ++ ["run 0".data], true)
          else if cmd = "minimize".data then (acc ++ ["minimize 0 0 0 0".data], run_found)
          else (acc ++ [line], run_found)
  let (out, run_found) := lines.foldl step ([], false)
  let out := if run_found then out else out ++ ["run 0".data]
  String.intercalate "\n" (out.map String.mk)

/-- `validate_l2`, with the engine execution (working-directory setup,
subprocess call, output classification) as the continuation `run`, applied
to the found binary and the zero-step deck. -/
def validate_l2 (w : FsWorld) (content : String) (lammps_binary : Option String)
    (run : String → String → L2Result) : L2Result :=
  match find_lammps_binary w lammps_binary with
  | none =>
    { passed := true
      engine_output := ""
      return_code := -1
      execution_time := Frac.zero
      details := ["LAMMPS binary not found - L2 validation skipped"] }
  | some b => run b (createZeroStepDeck content)

/-- `validate_l3`, with the engine execution as the continuation `run`
applied to the found binary and the raw deck (the minimal-step transform
happens inside the execution path). -/
def validate_l3 (w : FsWorld) (content : String) (lammps_binary : Option String)
    (run : String → String → L3Result) : L3Result :=
  match find_lammps_binary w lammps_binary with
  | none =>
    { passed := true
      engine_output := ""
      return_code := -1
      execution_time := Frac.zero
      steps_run := 0
      thermo_data := []
      thermo_warnings := ["LAMMPS binary not found - L3 validation skipped"]
      details := ["LAMMPS binary not found - L3 validation skipped"] }
  | some b => run b content

/-! ## Validation orchestrator (`src/validation/__init__.py`) -/

/-- Aggregate result (`schemas.ValidationResult`). -/
structure ValidationResult where
  overall_passed : Bool
  l0 : L0Result
  l1 : L1Result
  l2 : L2Result
  l3 : L3Result
  issues : List String := []
  deriving Repr, DecidableEq

/-- The L0 summary line of `validate_deck`. -/
def l0IssueLine (n : Nat) : String :=
  "L0: " ++ natToStr n ++ " unresolved placeholder(s) found"

/-- The L1 summary line of `validate_deck`. -/
def l1IssueLine (errs crit : Nat) : String :=
  "L1: " ++ natToStr errs ++ " syntax error(s), " ++ natToStr crit
    ++ " critical physics error(s)"

/-- The L2 summary line of `validate_deck`. -/
def l2IssueLine : String := "L2: LAMMPS engine acceptance failed"

/-- The L3 summary line of `validate_deck`. -/
def l3IssueLine : String := "L3: LAMMPS minimal execution failed"

/-- `validate_deck`: run all four levels, collect one summary line per
failing level, conjoin the four `passed` flags. -/
def validate_deck (w : FsWorld) (content : String) (lammps_binary : Option String)
    (runL2 : String → String → L2Result) (runL3 : String → String → L3Result) :
    ValidationResult :=
  let l0_result := validate_l0 content
  let issues0 := if !l0_result.passed then [l0IssueLine l0_result.unresolved_count] else []
  let l1_result := validate_l1 content
  let issues1 :=
    if !l1_result.passed then
      [l1IssueLine l1_result.syntax_errors.length
        (l1_result.physics_warnings.filter fun w' => containsSub w' "Negative").length]
    else []
  let l2_result := validate_l2 w content lammps_binary runL2
  let issues2 := if !l2_result.passed then [l2IssueLine] else []
  let l3_result := validate_l3 w content lammps_binary runL3
  let issues3 := if !l3_result.passed then [l3IssueLine] else []
  { overall_passed :=
      l0_result.passed && l1_result.passed && l2_result.passed && l3_result.passed
    l0 := l0_result
    l1 := l1_result
    l2 := l2_result
    l3 := l3_result
    issues := issues0 ++ issues1 ++ issues2 ++ issues3 }

/-! ## File utilities (`src/validation/file_utils.py`)

The filesystem is modelled as a finite map from path strings to file
contents (an association list).  Directories are implicit; `copy2` is a
content copy (metadata is not modelled).  Python `set` iteration order is
modelled as insertion order. -/

/-- Lookup in the path → content map. -/
def fsLookup (fs : List (String × String)) (p : String) : Option String :=
  (fs.find? fun e => e.1 = p).map (·.2)

/-- Does the path exist (as a file)? -/
def fsExists (fs : List (String × String)) (p : String) : Bool :=
  (fsLookup fs p).isSome

/-- Write/overwrite a file in the map. -/
def fsSet : List (String × String) → String → String → List (String × String)
  | [], p, v => [(p, v)]
  | e :: rest, p, v => if e.1 = p then (p, v) :: rest else e :: fsSet rest p v

/-- `Path.name`: the last `/`-separated component. -/
def baseName (p : String) : String :=
  String.mk ((pySplitOn '/' p.data).getLastD [])

/-- `Path.parent` as a string (`"."` for a bare filename). -/
def parentDir (p : String) : String :=
  let comps := pySplitOn '/' p.data
  if comps.length ≤ 1 then "."
  else String.intercalate "/" ((comps.dropLast).map String.mk)

/-- `Path` `/` join (joining onto `"."` keeps the filename bare). -/
def joinPath (d f : String) : String :=
  if d = "." then f else d ++ "/" ++ f

/-- `Path.is_absolute`. -/
def isAbsolutePath (p : String) : Bool := p.data.head? = some '/'

/-- `LAMMPS_FILE_EXTENSIONS`. -/
def LAMMPS_FILE_EXTENSIONS : List String :=
  [".data", ".dat", ".restart", ".rst", ".lammps", ".in", ".inp",
   ".eam", ".fs", ".alloy", ".tersoff", ".sw", ".meam", ".comb", ".comb3",
   ".reax", ".ffield", ".txt", ".table"]

/-- `part.endswith(ext)` for any known extension. -/
def hasKnownExt (part : String) : Bool :=
  LAMMPS_FILE_EXTENSIONS.any fun e => decide (e.data <:+ part.data)

/-- Are the underscores of a Python numeric literal validly placed
(strictly between digits)? -/
def underscoresOkAux : Option Char → List Char → Bool
  | _, [] => true
  | prev, c :: rest =>
    if c = '_' then
      (match prev with | some p => isDigitC p | none => false)
      && (match rest with | d :: _ => isDigitC d | [] => false)
      && underscoresOkAux (some c) rest
    else underscoresOkAux (some c) rest

/-- Is the token accepted by Python `float()`?  Beyond the literal grammar
of `pyFloat` this also accepts `nan`/`inf`/`infinity` (any case, optional
sign) and digit-group underscores. -/
def pyFloatLike (tok : List Char) : Bool :=
  let t := lowerList tok
  let t₁ := match t with
    | '+' :: r => r
    | '-' :: r => r
    | r => r
  if t₁ = "nan".data || t₁ = "inf".data || t₁ = "infinity".data then true
  else underscoresOkAux none tok && (pyFloat (tok.filter (· ≠ '_'))).isSome

/-- The possible file reference carried by one `pair_coeff` token. -/
def pairCoeffRef (part : String) : Option String :=
  if part = "*" || part = "NULL" then none
  else if pyFloatLike part.data then none
  else if hasKnownExt part then some part
  else if ('/' ∈ part.data || '.' ∈ part.data) && part.data.head? ≠ some '-' then
    some part
  else none

/-- File references contributed by one parsed command line. -/
def refsFromParts (cmd : String) (args : List String) : List String :=
  if cmd = "read_data" || cmd = "read_restart" || cmd = "include"
      || cmd = "read_dump" then
    match args with | a :: _ => [a] | [] => []
  else if cmd = "molecule" then
    match args with | _ :: b :: _ => [b] | _ => []
  else if cmd = "pair_coeff" then args.filterMap pairCoeffRef
  else if cmd = "bond_coeff" || cmd = "angle_coeff" || cmd = "dihedral_coeff" then
    args.filter hasKnownExt
  else []

/-- File references of one deck line (pure comments contribute none). -/
def lineRefTokens (line : List Char) : List String :=
  let stripped := pyStrip line
  if stripped.isEmpty || stripped.head? = some '#' then []
  else
    let noComment := (pySplitOn '#' stripped).headD []
    match pySplitWs (pyStrip noComment) with
    | [] => []
    | p :: ps => refsFromParts (String.mk (lowerList p)) (ps.map String.mk)

/-- Deduplicating insertion (the Python `set`, in insertion order). -/
def addRef (l : List String) (r : String) : List String :=
  if r ∈ l then l else l ++ [r]

/-- `parse_file_references`. -/
def parse_file_references (content : String) : List String :=
  (pySplitOn '\n' content.data).foldl
    (fun acc line => (lineRefTokens line).foldl addRef acc) []

/-- Deduplicating list append. -/
def dedupAppend (l : List String) (x : String) : List String :=
  if x ∈ l then l else l ++ [x]

/-- `find_file_in_context` (no extra `search_dirs`, as called by
`setup_working_directory`): first a name/suffix match over the context
files, then a filename search through the parents of the existing context
files. -/
def find_file_in_context (filename : String) (context_files : List String)
    (fs : List (String × String)) : Option String :=
  let fname := baseName filename
  match context_files.find? (fun cf =>
      (baseName cf = fname || decide (filename.data <:+ cf.data)) && fsExists fs cf) with
  | some cf => some cf
  | none =>
    let dirs := ((context_files.filter (fsExists fs ·)).map parentDir).foldl dedupAppend []
    dirs.findSome? fun d =>
      let cand1 := joinPath d filename
      if fsExists fs cand1 then some cand1
      else
        let cand2 := joinPath d fname
        if fsExists fs cand2 then some cand2 else none

/-- One step of the referenced-file copy phase of `setup_working_directory`:
copy the first found source to its destination under the working directory
(overwriting whatever is there) unless source and destination coincide. -/
def refCopyStep (context_files : List String) (working_dir : String)
    (st : List (String × String) × List String) (ref : String) :
    List (String × String) × List String :=
  if ref ∈ st.2 then st
  else
    match find_file_in_context ref context_files st.1 with
    | some sp =>
      let dest_name := if isAbsolutePath ref then baseName ref else ref
      let dest := joinPath working_dir dest_name
      if sp ≠ dest then
        match fsLookup st.1 sp with
        | some content => (fsSet st.1 dest content, st.2 ++ [ref])
        | none => st
      else st
    | none => st

/-- One step of the unreferenced-context-file copy phase of
`setup_working_directory`: copy the context file to the working directory
unless the destination already exists. -/
def cuStep (working_dir : String) (fs : List (String × String)) (cf : String) :
    List (String × String) :=
  if fsExists fs cf then
    let dest := joinPath working_dir (baseName cf)
    if fsExists fs dest then fs
    else
      match fsLookup fs cf with
      | some c => fsSet fs dest c
      | none => fs
  else fs

/-- The unreferenced-context-file copy phase of `setup_working_directory`. -/
def copyUnreferencedPhase (context_files : List String) (working_dir : String)
    (fs : List (String × String)) : List (String × String) :=
  context_files.foldl (cuStep working_dir) fs

/-- `setup_working_directory`: write the deck, copy referenced files, then
copy the remaining context files; returns the new filesystem and the deck
path. -/
def setup_working_directory (deck_content : String) (context_files : List String)
    (working_dir : String) (fs : List (String × String))
    (deck_filename : String := "input.lammps") :
    List (String × String) × String :=
  let deck_path := joinPath working_dir deck_filename
  let fs₁ := fsSet fs deck_path deck_content
  let refs := parse_file_references deck_content
  let fs₂ := (refs.foldl (refCopyStep context_files working_dir) (fs₁, [])).1
  let fs₃ := copyUnreferencedPhase context_files working_dir fs₂
  (fs₃, deck_path)

/-! ## Generation loop (`src/generator.py`)

The LLM collaborator is modelled as `llm : Nat → String → Except String
String` (per-attempt response or raised exception), response parsing as a
function parameter (the claims under check hold for every parse result),
and the output-file write as an `Except`. -/

/-- An assumption record (`schemas.Assumption`); the category enum is kept
as its string value. -/
structure Assumption where
  category : String
  description : String
  assumed_value : String
  reasoning : String := ""
  confidence : String := "medium"
  deriving Repr, DecidableEq

/-- One generation attempt (`schemas.GenerationAttempt`). -/
structure GenerationAttempt where
  attempt_number : Nat
  deck_content : String
  validation_passed : Bool
  errors : List String := []
  fixes_applied : List String := []
  deriving Repr, DecidableEq

/-- Generator input (`schemas.ReaperInput`); `max_retries` is non-negative. -/
structure ReaperInput where
  intent : String
  files : List String := []
  output_path : Option String := none
  lammps_binary : Option String := none
  max_retries : Nat := 3
  enable_iterative_fixing : Bool := true

/-- Generator output (`schemas.ReaperOutput`). -/
structure ReaperOutput where
  success : Bool
  deck_content : String
  output_path : Option String := none
  validation : Option ValidationResult := none
  errors : List String := []
  warnings : List String := []
  assumptions : List Assumption := []
  attempts : List GenerationAttempt := []
  total_attempts : Nat := 1
  deriving Repr, DecidableEq

/-- Python slice `s[:n]`. -/
def strTake (s : String) (n : Nat) : String := String.mk (s.data.take n)

/-- `_format_validation_errors`. -/
def formatValidationErrors (v : ValidationResult) : String :=
  String.intercalate "\n"
    ((if !v.l0.passed then
        ["L0 (Placeholders): " ++ String.intercalate ", " v.l0.details] else [])
    ++ (if !v.l1.passed then
        (if !v.l1.syntax_errors.isEmpty then
          ["L1 (Syntax): " ++ String.intercalate ", " v.l1.syntax_errors] else [])
        ++ (if !v.l1.physics_warnings.isEmpty then
          ["L1 (Physics): " ++ String.intercalate ", " v.l1.physics_warnings] else [])
      else [])
    ++ (if !v.l2.passed then
        ["L2 (Engine): " ++ String.intercalate ", " v.l2.details] else [])
    ++ (if !v.l3.passed then
        ["L3 (Execution): " ++ String.intercalate ", " v.l3.details] else []))

/-- `FIX_PROMPT_TEMPLATE.format(errors=..., lammps_output=...)`. -/
def fixPrompt (errors lammps_output : String) : String :=
  "The previous LAMMPS script failed validation with these errors:\n\n"
  ++ errors
  ++ "\n\nLAMMPS output:\n"
  ++ lammps_output
  ++ "\n\nPlease fix the script to address these errors. Common fixes:\n"
  ++ "- If \"Unknown bond/angle/dihedral/improper style\": Add the style declaration BEFORE read_data\n"
  ++ "- If \"Cannot open file\": Check the filename matches the provided data file\n"
  ++ "- If pair_coeff errors: Ensure pair_style is set and coefficients match atom types\n"
  ++ "- If kspace errors: Use pppm 1.0e-5 for charged systems\n\n"
  ++ "Output your response in the same format:\n"
  ++ "1. JSON assumptions block (update if you changed assumptions)\n"
  ++ "2. Fixed LAMMPS script starting with \"# LAMMPS INPUT SCRIPT\"\n"

/-- `build_prompt` (`file_context` of `None` or `""` contributes nothing,
Python truthiness). -/
def buildPrompt (intent : String) (file_context : Option String) : String :=
  String.intercalate "\n"
    ((match file_context with
      | some fc => if fc ≠ "" then [fc, ""] else []
      | none => [])
    ++ ["=== SIMULATION REQUEST ===", intent, "",
        "=== OUTPUT INSTRUCTIONS ===",
        "1. First output a JSON block with your assumptions",
        "2. Then output the LAMMPS script starting with \x27# LAMMPS INPUT SCRIPT\x27",
        "Remember: Declare ALL required styles BEFORE read_data!"])

/-- State threaded through the generation loop. -/
structure LoopSt where
  errors : List String
  warnings : List String
  all_assumptions : List Assumption
  attempts : List GenerationAttempt
  deck_content : String
  validation : Option ValidationResult
  current_prompt : String
  deriving Repr, DecidableEq

/-- `attempts[-1].fixes_applied.append(fix)`. -/
def appendFixToLast : List GenerationAttempt → String → List GenerationAttempt
  | [], _ => []
  | [a], f => [{ a with fixes_applied := a.fixes_applied ++ [f] }]
  | a :: rest, f => a :: appendFixToLast rest f

/-- The `for attempt_num in range(1, max_attempts + 1)` body of
`generate_deck`; returning the state without recursing models `break`. -/
def genLoop (inp : ReaperInput) (llm : Nat → String → Except String String)
    (parseResponse : String → String × List Assumption)
    (w : FsWorld) (runL2 : String → String → L2Result)
    (runL3 : String → String → L3Result) (max_attempts : Nat) :
    List Nat → LoopSt → LoopSt
  | [], st => st
  | n :: rest, st =>
    match llm n st.current_prompt with
    | .error e =>
      { st with errors := st.errors
          ++ ["LLM API error on attempt " ++ natToStr n ++ ": " ++ e] }
    | .ok response =>
      let (deck, asms) := parseResponse response
      let st := { st with
        deck_content := deck
        all_assumptions := st.all_assumptions ++ asms }
      if deck = "" then
        genLoop inp llm parseResponse w runL2 runL3 max_attempts rest
          { st with errors := st.errors
              ++ ["Attempt " ++ natToStr n ++ ": LLM returned empty response"] }
      else
        let validation := validate_deck w deck inp.lammps_binary runL2 runL3
        let attempt_errors := if !validation.overall_passed then validation.issues else []
        let st := { st with
          validation := some validation
          attempts := st.attempts ++
            [{ attempt_number := n
               deck_content := deck
               validation_passed := validation.overall_passed
               errors := attempt_errors
               fixes_applied := [] }] }
        if validation.overall_passed then st
        else if !inp.enable_iterative_fixing || max_attempts ≤ n then st
        else
          let error_text := formatValidationErrors validation
          let lammps_output :=
            if !validation.l2.passed then strTake validation.l2.engine_output 2000
            else if !validation.l3.passed then strTake validation.l3.engine_output 2000
            else ""
          let current_prompt := fixPrompt error_text
            (if lammps_output ≠ "" then lammps_output else "No LAMMPS output available")
          genLoop inp llm parseResponse w runL2 runL3 max_attempts rest
            { st with
              current_prompt := current_prompt
              attempts := appendFixToLast st.attempts
                ("Attempting fix for: " ++ strTake error_text 200) }

/-- The post-loop block of `generate_deck`: write the output file when a
path was given and a script exists (a write failure appends an error),
then determine `success` from the final validation, forced false when
errors exist and no script was produced. -/
def finishOutput (output_path : Option String) (writeResult : Except String Unit)
    (stF : LoopSt) : ReaperOutput :=
  let writeOut : Option String × List String :=
    match output_path with
    | some p =>
      if stF.deck_content ≠ "" then
        match writeResult with
        | .ok _ => (some p, stF.errors)
        | .error e => (none, stF.errors ++ ["Failed to write output file: " ++ e])
      else (none, stF.errors)
    | none => (none, stF.errors)
  let success₀ := match stF.validation with
    | some v => v.overall_passed
    | none => false
  let success := if !writeOut.2.isEmpty && stF.deck_content = "" then false else success₀
  { success := success
    deck_content := stF.deck_content
    output_path := writeOut.1
    validation := stF.validation
    errors := writeOut.2
    warnings := stF.warnings
    assumptions := stF.all_assumptions
    attempts := stF.attempts
    total_attempts := stF.attempts.length }

/-- `generate_deck`: build the prompt, initialise the provider, run the
bounded generation loop, write the output file, and determine success.
`fileCtxResult` is the formatted file context read from disk
(`build_file_context`, empty when nothing was readable), and `writeResult`
is the outcome of the output-file write. -/
def generate_deck (inp : ReaperInput) (fileCtxResult : String)
    (providerInit : Except String Unit)
    (llm : Nat → String → Except String String)
    (parseResponse : String → String × List Assumption)
    (w : FsWorld) (runL2 : String → String → L2Result)
    (runL3 : String → String → L3Result)
    (writeResult : Except String Unit) : ReaperOutput :=
  let warnings₀ :=
    if !inp.files.isEmpty && fileCtxResult = "" then
      ["Some input files could not be read"] else []
  let file_context : Option String :=
    if !inp.files.isEmpty then some fileCtxResult else none
  let prompt := buildPrompt inp.intent file_context
  match providerInit with
  | .error e =>
    { success := false
      deck_content := ""
      output_path := none
      validation := none
      errors := ["Failed to initialize provider: " ++ e]
      warnings := warnings₀ }
  | .ok _ =>
    let max_attempts := if inp.enable_iterative_fixing then inp.max_retries + 1 else 1
    let st₀ : LoopSt :=
      { errors := [], warnings := warnings₀, all_assumptions := [], attempts := []
        deck_content := "", validation := none, current_prompt := prompt }
    finishOutput inp.output_path writeResult
      (genLoop inp llm parseResponse w runL2 runL3 max_attempts
        (List.range' 1 max_attempts) st₀)

/-! ## Helper lemmas -/

/-- Counting in the four-chunk issues list: the first chunk's line. -/
theorem count_chunks₁ (A B C D : String) (p0 p1 p2 p3 : Bool)
    (hAB : A ≠ B) (hAC : A ≠ C) (hAD : A ≠ D) :
    ((if p0 then [A] else []) ++ (if p1 then [B] else []) ++ (if p2 then [C] else [])
      ++ (if p3 then [D] else [])).count A = if p0 then 1 else 0 := by
  cases p0 <;> cases p1 <;> cases p2 <;> cases p3 <;>
    simp [List.count_append, List.count_singleton, List.count_cons, List.count_nil,
      hAB, hAC, hAD]

/-- Counting in the four-chunk issues list: the second chunk's line. -/
theorem count_chunks₂ (A B C D : String) (p0 p1 p2 p3 : Bool)
    (hBA : B ≠ A) (hBC : B ≠ C) (hBD : B ≠ D) :
    ((if p0 then [A] else []) ++ (if p1 then [B] else []) ++ (if p2 then [C] else [])
      ++ (if p3 then [D] else [])).count B = if p1 then 1 else 0 := by
  cases p0 <;> cases p1 <;> cases p2 <;> cases p3 <;>
    simp [List.count_append, List.count_singleton, List.count_cons, List.count_nil,
      hBA, hBC, hBD]

/-- Counting in the four-chunk issues list: the third chunk's line. -/
theorem count_chunks₃ (A B C D : String) (p0 p1 p2 p3 : Bool)
    (hCA : C ≠ A) (hCB : C ≠ B) (hCD : C ≠ D) :
    ((if p0 then [A] else []) ++ (if p1 then [B] else []) ++ (if p2 then [C] else [])
      ++ (if p3 then [D] else [])).count C = if p2 then 1 else 0 := by
  cases p0 <;> cases p1 <;> cases p2 <;> cases p3 <;>
    simp [List.count_append, List.count_singleton, List.count_cons, List.count_nil,
      hCA, hCB, hCD]

/-- Counting in the four-chunk issues list: the fourth chunk's line. -/
theorem count_chunks₄ (A B C D : String) (p0 p1 p2 p3 : Bool)
    (hDA : D ≠ A) (hDB : D ≠ B) (hDC : D ≠ C) :
    ((if p0 then [A] else []) ++ (if p1 then [B] else []) ++ (if p2 then [C] else [])
      ++ (if p3 then [D] else [])).count D = if p3 then 1 else 0 := by
  cases p0 <;> cases p1 <;> cases p2 <;> cases p3 <;>
    simp [List.count_append, List.count_singleton, List.count_cons, List.count_nil,
      hDA, hDB, hDC]

/-- Length of the four-chunk issues list. -/
theorem length_chunks (A B C D : String) (p0 p1 p2 p3 : Bool) :
    ((if p0 then [A] else []) ++ (if p1 then [B] else []) ++ (if p2 then [C] else [])
      ++ (if p3 then [D] else [])).length =
      (if p0 then 1 else 0) + (if p1 then 1 else 0) + (if p2 then 1 else 0)
        + (if p3 then 1 else 0) := by
  cases p0 <;> cases p1 <;> cases p2 <;> cases p3 <;> simp

/-- The four summary lines are pairwise distinct (they differ at their
second character). -/
theorem l0IssueLine_ne_l1 (a b c : Nat) : l0IssueLine a ≠ l1IssueLine b c := by
  intro h
  have h2 := congrArg String.data h
  simp [l0IssueLine, l1IssueLine, String.data_append] at h2

/-- The L0 and L2 summary lines differ. -/
theorem l0IssueLine_ne_l2 (a : Nat) : l0IssueLine a ≠ l2IssueLine := by
  intro h
  have h2 := congrArg String.data h
  simp [l0IssueLine, l2IssueLine, String.data_append] at h2

/-- The L0 and L3 summary lines differ. -/
theorem l0IssueLine_ne_l3 (a : Nat) : l0IssueLine a ≠ l3IssueLine := by
  intro h
  have h2 := congrArg String.data h
  simp [l0IssueLine, l3IssueLine, String.data_append] at h2

/-- The L1 and L2 summary lines differ. -/
theorem l1IssueLine_ne_l2 (b c : Nat) : l1IssueLine b c ≠ l2IssueLine := by
  intro h
  have h2 := congrArg String.data h
  simp [l1IssueLine, l2IssueLine, String.data_append] at h2

/-- The L1 and L3 summary lines differ. -/
theorem l1IssueLine_ne_l3 (b c : Nat) : l1IssueLine b c ≠ l3IssueLine := by
  intro h
  have h2 := congrArg String.data h
  simp [l1IssueLine, l3IssueLine, String.data_append] at h2

/-- The L2 and L3 summary lines differ. -/
theorem l2IssueLine_ne_l3 : l2IssueLine ≠ l3IssueLine := by decide

/-! ## Claim theorems -/

/-- C1: `validate_deck` runs all four levels (all four outcomes are present
in the result, none short-circuits another), `overall_passed` is the
conjunction of the four `passed` flags, and `issues` holds exactly one
summary line for each failing level and none for a passing level. -/
theorem C1_validate_deck (w : FsWorld) (content : String) (bin : Option String)
    (runL2 : String → String → L2Result) (runL3 : String → String → L3Result) :
    let r := validate_deck w content bin runL2 runL3
    r.l0 = validate_l0 content ∧ r.l1 = validate_l1 content
    ∧ r.l2 = validate_l2 w content bin runL2 ∧ r.l3 = validate_l3 w content bin runL3
    ∧ r.overall_passed = (r.l0.passed && r.l1.passed && r.l2.passed && r.l3.passed)
    ∧ r.issues.count (l0IssueLine r.l0.unresolved_count)
        = (if r.l0.passed then 0 else 1)
    ∧ r.issues.count (l1IssueLine r.l1.syntax_errors.length
        (r.l1.physics_warnings.filter fun w' => containsSub w' "Negative").length)
        = (if r.l1.passed then 0 else 1)
    ∧ r.issues.count l2IssueLine = (if r.l2.passed then 0 else 1)
    ∧ r.issues.count l3IssueLine = (if r.l3.passed then 0 else 1)
    ∧ r.issues.length =
        (if r.l0.passed then 0 else 1) + (if r.l1.passed then 0 else 1)
        + (if r.l2.passed then 0 else 1) + (if r.l3.passed then 0 else 1) := by
  simp only [validate_deck]
  refine ⟨trivial, trivial, trivial, trivial, trivial, ?_, ?_, ?_, ?_, ?_⟩
  · rw [count_chunks₁ _ _ _ _ _ _ _ _ (l0IssueLine_ne_l1 _ _ _)
      (l0IssueLine_ne_l2 _) (l0IssueLine_ne_l3 _)]
    rcases Bool.dichotomy ((validate_l0 content).passed) with h | h <;> simp [h]
  · rw [count_chunks₂ _ _ _ _ _ _ _ _ (fun h => l0IssueLine_ne_l1 _ _ _ h.symm)
      (l1IssueLine_ne_l2 _ _) (l1IssueLine_ne_l3 _ _)]
    rcases Bool.dichotomy ((validate_l1 content).passed) with h | h <;> simp [h]
  · rw [count_chunks₃ _ _ _ _ _ _ _ _ (fun h => l0IssueLine_ne_l2 _ h.symm)
      (fun h => l1IssueLine_ne_l2 _ _ h.symm) l2IssueLine_ne_l3]
    rcases Bool.dichotomy ((validate_l2 w content bin runL2).passed) with h | h <;> simp [h]
  · rw [count_chunks₄ _ _ _ _ _ _ _ _ (fun h => l0IssueLine_ne_l3 _ h.symm)
      (fun h => l1IssueLine_ne_l3 _ _ h.symm) (fun h => l2IssueLine_ne_l3 h.symm)]
    rcases Bool.dichotomy ((validate_l3 w content bin runL3).passed) with h | h <;> simp [h]
  · rw [length_chunks]
    rcases Bool.dichotomy ((validate_l0 content).passed) with h0 | h0 <;>
      rcases Bool.dichotomy ((validate_l1 content).passed) with h1 | h1 <;>
      rcases Bool.dichotomy ((validate_l2 w content bin runL2).passed) with h2 | h2 <;>
      rcases Bool.dichotomy ((validate_l3 w content bin runL3).passed) with h3 | h3 <;>
      simp [h0, h1, h2, h3]

/-- Helper: under the three-way failure condition the binary search finds
nothing. -/
theorem find_lammps_binary_eq_none (w : FsWorld) (user : Option String)
    (h1 : ∀ p, user = some p → isUsableBinary w p = false)
    (h2 : ∀ s, w.envLammpsBinary = some s → s ≠ "" → isUsableBinary w s = false)
    (h3 : ∀ p ∈ lammpsPaths w.home, isUsableBinary w p = false) :
    find_lammps_binary w user = none := by
  have hfind : (lammpsPaths w.home).find? (isUsableBinary w) = none := by
    apply List.find?_eq_none.mpr
    intro p hp
    simp [h3 p hp]
  have henv : find_lammps_binary.find_lammps_binary_env w = none := by
    unfold find_lammps_binary.find_lammps_binary_env
    cases hev : w.envLammpsBinary with
    | none => simpa using hfind
    | some s =>
      by_cases hs : s = ""
      · simp [hs, hfind]
      · simp [hs, h2 s hev hs, hfind]
  cases user with
  | none => simpa [find_lammps_binary] using henv
  | some p => simp [find_lammps_binary, h1 p rfl, henv]

/-- C4: with the explicit override, the environment variable, and every
fixed search path all failing, L2 and L3 are skipped and reported as
passed, with a skip detail, `steps_run = 0`, and empty thermo data. -/
theorem C4_engine_absent_skips (w : FsWorld) (content : String) (user : Option String)
    (runL2 : String → String → L2Result) (runL3 : String → String → L3Result)
    (h1 : ∀ p, user = some p → isUsableBinary w p = false)
    (h2 : ∀ s, w.envLammpsBinary = some s → s ≠ "" → isUsableBinary w s = false)
    (h3 : ∀ p ∈ lammpsPaths w.home, isUsableBinary w p = false) :
    validate_l2 w content user runL2 =
      { passed := true, engine_output := "", return_code := -1, execution_time := Frac.zero,
        details := ["LAMMPS binary not found - L2 validation skipped"] }
    ∧ validate_l3 w content user runL3 =
      { passed := true, engine_output := "", return_code := -1, execution_time := Frac.zero,
        steps_run := 0, thermo_data := [],
        thermo_warnings := ["LAMMPS binary not found - L3 validation skipped"],
        details := ["LAMMPS binary not found - L3 validation skipped"] } := by
  have hf := find_lammps_binary_eq_none w user h1 h2 h3
  constructor
  · simp [validate_l2, hf]
  · simp [validate_l3, hf]

/-- Witness for C4: a world with no files at all skips L2 and L3. -/
theorem C4_engine_absent_skips_witness :
    validate_l2 ⟨fun _ => false, fun _ => false, none, "/root"⟩ "units lj" none
        (fun _ _ => { passed := false }) =
      { passed := true, engine_output := "", return_code := -1, execution_time := Frac.zero,
        details := ["LAMMPS binary not found - L2 validation skipped"] }
    ∧ validate_l3 ⟨fun _ => false, fun _ => false, none, "/root"⟩ "units lj" none
        (fun _ _ => { passed := false }) =
      { passed := true, engine_output := "", return_code := -1, execution_time := Frac.zero,
        steps_run := 0, thermo_data := [],
        thermo_warnings := ["LAMMPS binary not found - L3 validation skipped"],
        details := ["LAMMPS binary not found - L3 validation skipped"] } :=
  C4_engine_absent_skips _ "units lj" none _ _
    (by intro p h; cases h) (by intro s h; cases h) (by intro p _; rfl)

/-- `fixes_applied` updates do not change the number of attempts. -/
theorem appendFixToLast_length (l : List GenerationAttempt) (f : String) :
    (appendFixToLast l f).length = l.length := by
  induction l with
  | nil => rfl
  | cons a rest ih =>
    cases rest with
    | nil => rfl
    | cons b rest' => simpa [appendFixToLast] using ih

/-- Each loop iteration records at most one attempt. -/
theorem genLoop_attempts_le (inp : ReaperInput)
    (llm : Nat → String → Except String String)
    (parse : String → String × List Assumption) (w : FsWorld)
    (runL2 : String → String → L2Result) (runL3 : String → String → L3Result)
    (maxA : Nat) :
    ∀ (fuel : List Nat) (st : LoopSt),
      (genLoop inp llm parse w runL2 runL3 maxA fuel st).attempts.length
        ≤ st.attempts.length + fuel.length := by
  intro fuel
  induction fuel with
  | nil => intro st; simp [genLoop]
  | cons n rest ih =>
    intro st
    rw [genLoop]
    cases hl : llm n st.current_prompt with
    | error e => simp
    | ok response =>
      rcases hpr : parse response with ⟨deck, asms⟩
      simp only [hpr]
      by_cases hdeck : deck = ""
      · simp only [if_pos hdeck]
        refine le_trans (ih _) ?_
        simp only [List.length_cons]
        omega
      · simp only [if_neg hdeck]
        by_cases hv :
            (validate_deck w deck inp.lammps_binary runL2 runL3).overall_passed = true
        · simp only [if_pos hv]
          simp only [List.length_append, List.length_cons, List.length_nil]
          omega
        · simp only [if_neg hv]
          by_cases hstop : (!inp.enable_iterative_fixing || decide (maxA ≤ n)) = true
          · simp only [if_pos hstop]
            simp only [List.length_append, List.length_cons, List.length_nil]
            omega
          · simp only [if_neg hstop]
            refine le_trans (ih _) ?_
            simp only [appendFixToLast_length, List.length_append, List.length_cons,
              List.length_nil]
            omega

/-- C3: the generation loop always terminates within
`max_attempts = max_retries + 1` (iterative fixing on) or `1` (off)
iterations — at most that many attempts are recorded; and with fixing
disabled and a validation-failing first script, exactly one attempt is
recorded, with no fix note attached (the fix prompt is never built). -/
theorem C3_generation_loop_bounded (inp : ReaperInput) (fileCtx : String)
    (providerInit : Except String Unit)
    (llm : Nat → String → Except String String)
    (parse : String → String × List Assumption) (w : FsWorld)
    (runL2 : String → String → L2Result) (runL3 : String → String → L3Result)
    (writeRes : Except String Unit) :
    let r := generate_deck inp fileCtx providerInit llm parse w runL2 runL3 writeRes
    r.attempts.length ≤ (if inp.enable_iterative_fixing then inp.max_retries + 1 else 1)
    ∧ (inp.enable_iterative_fixing = false →
       providerInit = .ok () →
       ∀ resp deck asms,
         llm 1 (buildPrompt inp.intent
           (if !inp.files.isEmpty then some fileCtx else none)) = .ok resp →
         parse resp = (deck, asms) →
         deck ≠ "" →
         (validate_deck w deck inp.lammps_binary runL2 runL3).overall_passed = false →
         r.attempts = [{ attempt_number := 1, deck_content := deck,
                         validation_passed := false,
                         errors := (validate_deck w deck inp.lammps_binary runL2 runL3).issues,
                         fixes_applied := [] }]) := by
  constructor
  · cases providerInit with
    | error e => simp [generate_deck]
    | ok u =>
      simp only [generate_deck, finishOutput]
      refine le_trans (genLoop_attempts_le inp llm parse w runL2 runL3 _ _ _) ?_
      simp
  · intro hfix hinit resp deck asms hllm hparse hdeck hval
    subst hinit
    simp only [generate_deck, hfix]
    rw [show List.range' 1 (if false = true then inp.max_retries + 1 else 1) = [1] by simp]
    rw [genLoop]
    simp only [hllm, hparse, if_neg hdeck, hval]
    simp [hval, finishOutput]

/-- Concrete no-filesystem world for witnesses. -/
def noFsWorld : FsWorld := ⟨fun _ => false, fun _ => false, none, "/root"⟩

/-- A passing L2 oracle for witnesses. -/
def okRunL2 : String → String → L2Result := fun _ _ => { passed := true }

/-- A passing L3 oracle for witnesses. -/
def okRunL3 : String → String → L3Result := fun _ _ => { passed := true }

/-- A fixed-response LLM oracle for witnesses. -/
def constLlm : Nat → String → Except String String := fun _ _ => .ok "resp"

/-- A fixed parse result for witnesses: the deck `"units lj"`, which fails
L1 validation. -/
def constParse : String → String × List Assumption := fun _ => ("units lj", [])

/-- Witness input: iterative fixing disabled. -/
def witnessInput : ReaperInput :=
  { intent := "make lj", enable_iterative_fixing := false }

/-- Witness for C3: with fixing disabled and the failing deck `"units lj"`,
exactly one attempt is recorded, with no fix note. -/
theorem C3_generation_loop_bounded_witness :
    (generate_deck witnessInput "" (.ok ()) constLlm constParse noFsWorld okRunL2
      okRunL3 (.ok ())).attempts =
      [{ attempt_number := 1, deck_content := "units lj", validation_passed := false,
         errors := (validate_deck noFsWorld "units lj" none okRunL2 okRunL3).issues,
         fixes_applied := [] }] :=
  (C3_generation_loop_bounded witnessInput "" (.ok ()) constLlm constParse noFsWorld
      okRunL2 okRunL3 (.ok ())).2
    rfl rfl "resp" "units lj" [] rfl rfl (by decide) (by decide)

/-- The post-loop block keeps the loop's script. -/
theorem finishOutput_deck (op : Option String) (wr : Except String Unit) (st : LoopSt) :
    (finishOutput op wr st).deck_content = st.deck_content := rfl

/-- The post-loop block keeps the loop's validation. -/
theorem finishOutput_validation (op : Option String) (wr : Except String Unit)
    (st : LoopSt) : (finishOutput op wr st).validation = st.validation := rfl

/-- If the post-loop block reports success, the loop produced a passing
validation. -/
theorem ite_guard_eq_true {c s : Bool} (h : (if c = true then false else s) = true) :
    s = true := by
  cases c <;> simp_all

/-- If the post-loop block reports success, the loop produced a passing
validation (continued). -/
theorem finishOutput_success_imp (op : Option String) (wr : Except String Unit)
    (st : LoopSt) (h : (finishOutput op wr st).success = true) :
    ∃ v, st.validation = some v ∧ v.overall_passed = true := by
  simp only [finishOutput] at h
  have h2 := ite_guard_eq_true h
  cases hv : st.validation with
  | none => rw [hv] at h2; cases h2
  | some v => rw [hv] at h2; exact ⟨v, rfl, h2⟩

/-- With no validation, the post-loop block reports failure. -/
theorem finishOutput_no_validation (op : Option String) (wr : Except String Unit)
    (st : LoopSt) (h : st.validation = none) :
    (finishOutput op wr st).success = false := by
  simp only [finishOutput, h]
  simp

/-- With a non-empty script, `success` is exactly the final validation's
`overall_passed` (false when none), independent of the write outcome. -/
theorem finishOutput_success_of_deck (op : Option String) (wr : Except String Unit)
    (st : LoopSt) (h : st.deck_content ≠ "") :
    (finishOutput op wr st).success =
      (match st.validation with
       | some v => v.overall_passed
       | none => false) := by
  simp only [finishOutput]
  rw [if_neg]
  simp only [Bool.and_eq_true, not_and, decide_eq_true_eq]
  intro _
  exact h

/-- A failing write with a non-empty script and an output path appends the
write error. -/
theorem finishOutput_write_error (p e : String) (st : LoopSt)
    (h : st.deck_content ≠ "") :
    (finishOutput (some p) (.error e) st).errors =
      st.errors ++ ["Failed to write output file: " ++ e] := by
  simp only [finishOutput]
  rw [if_pos h]

/-- C2: `success` is true only when some attempt produced a validation
result whose `overall_passed` is true; with an empty final script and no
validation, `success` is false; and a failing output-file write appends an
error but — when a non-empty script exists — never changes `success`,
which equals the final validation's `overall_passed`. -/
theorem C2_success_from_validation (inp : ReaperInput) (fileCtx : String)
    (providerInit : Except String Unit)
    (llm : Nat → String → Except String String)
    (parse : String → String × List Assumption) (w : FsWorld)
    (runL2 : String → String → L2Result) (runL3 : String → String → L3Result)
    (writeRes : Except String Unit) (e : String) (p : String) :
    let r := generate_deck inp fileCtx providerInit llm parse w runL2 runL3 writeRes
    let rOk := generate_deck inp fileCtx providerInit llm parse w runL2 runL3 (.ok ())
    let rE := generate_deck inp fileCtx providerInit llm parse w runL2 runL3 (.error e)
    (r.success = true → ∃ v, r.validation = some v ∧ v.overall_passed = true)
    ∧ (r.deck_content = "" ∧ r.validation = none → r.success = false)
    ∧ rE.deck_content = rOk.deck_content
    ∧ (rE.deck_content ≠ "" → rE.success = rOk.success
        ∧ (rOk.success = match rOk.validation with
            | some v => v.overall_passed
            | none => false))
    ∧ (rE.deck_content ≠ "" → inp.output_path = some p →
        ("Failed to write output file: " ++ e) ∈ rE.errors) := by
  cases providerInit with
  | error e0 =>
    refine ⟨?_, ?_, rfl, ?_, ?_⟩
    · intro h; exact absurd h (by simp [generate_deck])
    · intro _; simp [generate_deck]
    · intro h; exact absurd rfl h
    · intro h; exact absurd rfl h
  | ok u =>
    simp only [generate_deck]
    refine ⟨?_, ?_, rfl, ?_, ?_⟩
    · intro hsucc
      obtain ⟨v, hv, hp⟩ := finishOutput_success_imp _ _ _ hsucc
      exact ⟨v, by rw [finishOutput_validation, hv], hp⟩
    · intro ⟨_, hval⟩
      rw [finishOutput_validation] at hval
      exact finishOutput_no_validation _ _ _ hval
    · intro hdeck
      rw [finishOutput_deck] at hdeck
      constructor
      · rw [finishOutput_success_of_deck _ _ _ hdeck,
          finishOutput_success_of_deck _ _ _ hdeck]
      · rw [finishOutput_success_of_deck _ _ _ hdeck, finishOutput_validation]
    · intro hdeck hop
      rw [finishOutput_deck] at hdeck
      rw [hop, finishOutput_write_error _ _ _ hdeck]
      simp

/-- Witness for C2: a run with a failing write, a non-empty failing deck,
and an output path records the write error while success stays false. -/
theorem C2_success_from_validation_witness :
    let rE := generate_deck { witnessInput with output_path := some "out.lammps" } ""
      (.ok ()) constLlm constParse noFsWorld okRunL2 okRunL3 (.error "disk full")
    ("Failed to write output file: " ++ "disk full") ∈ rE.errors := by
  have h := C2_success_from_validation
    { witnessInput with output_path := some "out.lammps" } "" (.ok ()) constLlm
    constParse noFsWorld okRunL2 okRunL3 (.error "disk full") "disk full" "out.lammps"
  exact h.2.2.2.2 (by decide) rfl

/-- The claim's per-sample failure predicate for thermo sanity: NaN/Inf in
temperature, total energy, potential energy, or pressure; negative
temperature; temperature above `1e6`; absolute total energy above `1e12`. -/
def badSample (d : ThermoData) : Bool :=
  (match d.temp with
   | some t => t.isNan || t.isInf || t.lt (.fin Frac.zero)
       || PFloat.lt (.fin ⟨1000000, 1⟩) t
   | none => false)
  || (match d.etotal with
   | some e => e.isNan || e.isInf || PFloat.lt (.fin ⟨10 ^ 12, 1⟩) e.abs
   | none => false)
  || (match d.pe with
   | some p => p.isNan || p.isInf
   | none => false)
  || (match d.press with
   | some p => p.isNan || p.isInf
   | none => false)

/-- A sample contributes no failure warnings exactly when it is not bad. -/
theorem sampleWarnings_isEmpty (d : ThermoData) :
    (sampleWarnings d).isEmpty = !badSample d := by
  rcases d with ⟨step, temp, press, pe, ke, etotal⟩
  cases temp <;> cases etotal <;> cases pe <;> cases press <;>
    simp only [sampleWarnings, badSample]
  all_goals try split_ifs
  all_goals try simp_all
  all_goals (intros; simp_all)

/-- First component of an `if` whose branches share it. -/
theorem fst_ite_pair {α β : Type} (c : Prop) [Decidable c] (x : α) (a b : β) :
    (if c then (x, a) else (x, b)).1 = x := by
  split <;> rfl

/-- The per-sample fold computes the conjunction of per-sample checks. -/
theorem sanity_foldl_fst (l : List ThermoData) (b : Bool) (ws : List String) :
    (l.foldl (fun (st : Bool × List String) d =>
      (st.1 && (sampleWarnings d).isEmpty, st.2 ++ sampleWarnings d)) (b, ws)).1
    = (b && l.all fun d => (sampleWarnings d).isEmpty) := by
  induction l generalizing b ws with
  | nil => simp
  | cons d rest ih => simp [ih, Bool.and_assoc]

/-- C7: the thermo sanity check fails exactly when some sample has a
NaN/Inf temperature, total energy, potential energy, or pressure, a
negative temperature, a temperature above `1e6`, or an absolute total
energy above `1e12`; the last-to-first temperature ratio and the relative
energy drift only append warnings (`passed` depends on nothing else); and
the empty series passes with one advisory warning. -/
theorem C7_thermo_sanity (series : List ThermoData) :
    ((checkThermoSanity series).1 = true ↔ ∀ d ∈ series, badSample d = false)
    ∧ (series = [] →
        (checkThermoSanity series).1 = true
        ∧ (checkThermoSanity series).2 = ["No thermodynamic data found in output"]) := by
  constructor
  · unfold checkThermoSanity
    by_cases hs : series.isEmpty
    · rw [if_pos hs]
      rw [List.isEmpty_iff] at hs
      subst hs
      simp
    · rw [if_neg hs]
      simp only [sanity_foldl_fst, Bool.true_and]
      rw [fst_ite_pair]
      rw [List.all_eq_true]
      constructor
      · intro h d hd
        have := h d hd
        rw [sampleWarnings_isEmpty] at this
        simpa using this
      · intro h d hd
        rw [sampleWarnings_isEmpty, h d hd]
        rfl
  · intro h
    subst h
    exact ⟨rfl, rfl⟩

/-- Witness for C7: the empty thermo series passes with the advisory
warning. -/
theorem C7_thermo_sanity_witness :
    (checkThermoSanity []).1 = true
    ∧ (checkThermoSanity []).2 = ["No thermodynamic data found in output"] :=
  (C7_thermo_sanity []).2 rfl

/-- Membership in an indexed per-line traversal. -/
theorem mem_overLines {α : Type} (f : Nat → List Char → List α) (x : α) :
    ∀ (n : Nat) (ls : List (List Char)),
      x ∈ overLines f n ls
        ↔ ∃ i line, ls.get? i = some line ∧ x ∈ f (n + i) line := by
  intro n ls
  induction ls generalizing n with
  | nil => simp [overLines]
  | cons l rest ih =>
    simp only [overLines, List.mem_append, ih (n + 1)]
    constructor
    · rintro (hx | ⟨i, line, hget, hx⟩)
      · exact ⟨0, l, rfl, by simpa using hx⟩
      · exact ⟨i + 1, line, by simpa using hget, by
          have : n + 1 + i = n + (i + 1) := by omega
          rwa [this] at hx⟩
    · rintro ⟨i, line, hget, hx⟩
      cases i with
      | zero =>
        left
        simp only [List.get?_cons_zero, Option.some.injEq] at hget
        subst hget
        simpa using hx
      | succ j =>
        right
        refine ⟨j, line, by simpa using hget, ?_⟩
        have : n + (j + 1) = n + 1 + j := by omega
        rwa [this] at hx

/-- The single-quote parity error is in a line's balance errors exactly
when its full stripped text holds an odd number of single quotes. -/
theorem singleQuote_mem_balance (l : List Char) :
    "Unbalanced single quotes" ∈ lineBalanceErrors l ↔ l.count '\x27' % 2 = 1 := by
  have h1 : "Unbalanced single quotes" ≠ "Unbalanced double quotes" := by decide
  have h2 : "Unbalanced single quotes" ≠ "Unbalanced parentheses" := by decide
  have h3 : "Unbalanced single quotes" ≠ "Unbalanced brackets" := by decide
  have h4 : "Unbalanced single quotes" ≠ "Unbalanced braces" := by decide
  unfold lineBalanceErrors
  split_ifs with c1 c2 c3 c4 c5 <;> simp_all

/-- C10: the balance checks run over the entire stripped line including
inline comment text after `#`; a deck whose only odd quote lies inside an
inline comment (`"units lj # don't"`) is flagged with an
unbalanced-single-quotes error at that line and fails L1, while blank
lines and full-line comments are never flagged. -/
theorem C10_inline_comment_counting (content : String) (n : Nat) (line : List Char)
    (hline : (pySplitOn '\n' content.data).get? n = some line) :
    (lineSkipped line = true → ∀ e, (n + 1, e) ∉ checkCommonSyntaxErrors content)
    ∧ (lineSkipped line = false →
        ((n + 1, "Unbalanced single quotes") ∈ checkCommonSyntaxErrors content
          ↔ (pyStrip line).count '\x27' % 2 = 1))
    ∧ (validate_l1 "units lj # don\x27t").passed = false
    ∧ "Line 1: Unbalanced single quotes"
        ∈ (validate_l1 "units lj # don\x27t").syntax_errors := by
  refine ⟨?_, ?_, by decide, by decide⟩
  · intro hsk e hmem
    rw [checkCommonSyntaxErrors, mem_overLines] at hmem
    obtain ⟨i, line', hget, hmem'⟩ := hmem
    by_cases hsk' : lineSkipped line'
    · rw [if_pos hsk'] at hmem'
      exact absurd hmem' (List.not_mem_nil _)
    · rw [if_neg hsk'] at hmem'
      obtain ⟨a, _, hpair⟩ := List.mem_map.mp hmem'
      have hi : 1 + i = n + 1 := congrArg Prod.fst hpair
      have : i = n := by omega
      subst this
      rw [hline] at hget
      cases hget
      exact hsk' hsk
  · intro hsk
    constructor
    · intro hmem
      rw [checkCommonSyntaxErrors, mem_overLines] at hmem
      obtain ⟨i, line', hget, hmem'⟩ := hmem
      by_cases hsk' : lineSkipped line'
      · rw [if_pos hsk'] at hmem'
        exact absurd hmem' (List.not_mem_nil _)
      · rw [if_neg hsk'] at hmem'
        obtain ⟨a, ha, hpair⟩ := List.mem_map.mp hmem'
        have hi : 1 + i = n + 1 := congrArg Prod.fst hpair
        have hmsg : a = "Unbalanced single quotes" := congrArg Prod.snd hpair
        have : i = n := by omega
        subst this
        rw [hline] at hget
        cases hget
        rw [hmsg] at ha
        exact (singleQuote_mem_balance _).mp ha
    · intro hodd
      rw [checkCommonSyntaxErrors, mem_overLines]
      refine ⟨n, line, hline, ?_⟩
      rw [if_neg (by simp [hsk])]
      refine List.mem_map.mpr ⟨"Unbalanced single quotes",
        (singleQuote_mem_balance _).mpr hodd, ?_⟩
      simp [Nat.add_comm]

/-- Witness for C10 at the concrete one-line deck with an apostrophe
inside the inline comment. -/
theorem C10_inline_comment_counting_witness :
    (1, "Unbalanced single quotes")
        ∈ checkCommonSyntaxErrors "units lj # don\x27t"
    ∧ (validate_l1 "units lj # don\x27t").passed = false := by
  have h := C10_inline_comment_counting "units lj # don\x27t" 0
    "units lj # don\x27t".data (by decide)
  exact ⟨(h.2.1 (by decide)).mpr (by decide), h.2.2.1⟩

/-- The argument list of a command's last parsed occurrence. -/
def lastSeenArgs (content : String) (cmd : String) : Option (List String) :=
  (((parsedCommands content).filter fun pc => pc.1 = cmd).getLast?).map (·.2)

/-- A fold of pointwise dict updates looks up to the last matching entry. -/
theorem foldl_upsert_lookup (k : String) (l : List (String × List String))
    (init : String → Option (List String)) :
    (l.foldl (fun f pc => fun q => if q = pc.1 then some pc.2 else f q) init) k
    = (match (l.filter fun pc => pc.1 = k).getLast? with
       | some pc => some pc.2
       | none => init k) := by
  induction l using List.reverseRecOn generalizing init with
  | nil => rfl
  | append_singleton l pc ih =>
    rw [List.foldl_append, List.foldl_cons, List.foldl_nil, List.filter_append]
    by_cases hk : pc.1 = k
    · rw [List.filter_cons_of_pos (by simpa using hk), List.filter_nil,
        List.getLast?_append]
      simp [hk]
    · rw [List.filter_cons_of_neg (by simpa using hk), List.filter_nil,
        List.append_nil]
      rw [if_neg (fun h => hk h.symm)]
      exact ih init

/-- C9 counterexample: in a deck where `units` appears twice, the code
validates the last-seen argument list, not the first-seen one — the
first-seen `lj` is valid while the only reported error names the last-seen
`bogus`, and the active unit system is the last-seen occurrence. -/
theorem C9_counterexample :
    (((parsedCommands "units lj\nunits bogus\natom_style atomic\ncreate_box 1 b").filter
        fun pc => pc.1 = "units").head? = some ("units", ["lj"]))
    ∧ validateUnitsCommand ["lj"] = none
    ∧ (validate_l1 "units lj\nunits bogus\natom_style atomic\ncreate_box 1 b").syntax_errors
      = ["Unknown unit system \x27bogus\x27 - valid options: cgs, electron, lj, metal, micro, nano, real, si"]
    ∧ activeUnits "units real\nunits lj" = "lj" := by
  refine ⟨by decide, rfl, by decide, by decide⟩

/-- C9 (amended): the argument list L1 validates against the closed unit
and atom-style sets, and the unit system selecting the physics-range
tables, come from the *last-seen* occurrence of the command. -/
theorem C9_last_seen_args (content : String) (cmd : String) :
    commandArgs content cmd = lastSeenArgs content cmd
    ∧ activeUnits content =
        (match lastSeenArgs content "units" with
         | some (a :: _) => lowerStr a
         | _ => "lj") := by
  have hmain : ∀ c, commandArgs content c = lastSeenArgs content c := by
    intro c
    rw [commandArgs, foldl_upsert_lookup, lastSeenArgs]
    cases ((parsedCommands content).filter fun pc => pc.1 = c).getLast? <;> rfl
  refine ⟨hmain cmd, ?_⟩
  rw [activeUnits, hmain "units"]

/-- A well-formed placeholder name: `[A-Z_][A-Z0-9_]*`. -/
def validNameB : List Char → Bool
  | [] => false
  | c :: rest => isNameStart c && rest.all isNameChar

/-- `takeWhile`/`dropWhile` on a satisfying block followed by a failing
character. -/
theorem span_exact (p : Char → Bool) (xs : List Char) (y : Char) (ys : List Char)
    (hx : ∀ x ∈ xs, p x = true) (hy : p y = false) :
    (xs ++ y :: ys).takeWhile p = xs ∧ (xs ++ y :: ys).dropWhile p = y :: ys := by
  induction xs with
  | nil => simp [List.takeWhile_cons, List.dropWhile_cons, hy]
  | cons x xs ih =>
    have hx0 : p x = true := hx x (by simp)
    have ih2 := ih fun a ha => hx a (by simp [ha])
    simp [List.takeWhile_cons, List.dropWhile_cons, hx0, ih2.1, ih2.2]

/-- The double-brace matcher succeeds on a well-shaped token. -/
theorem matchDoubleBraceAt_isSome (nm rest : List Char) (h : validNameB nm = true) :
    (matchDoubleBraceAt ('\x7b' :: '\x7b' :: (nm ++ '\x7d' :: '\x7d' :: rest))).isSome
      = true := by
  cases nm with
  | nil => cases h
  | cons c nm' =>
    simp only [validNameB, Bool.and_eq_true, List.all_eq_true] at h
    obtain ⟨hstart, hall⟩ := h
    have hspan := span_exact (fun d => isNameChar d) nm' '\x7d'
      ('\x7d' :: rest) (fun x hx => hall x hx) (by decide)
    simp only [List.cons_append, matchDoubleBraceAt, hstart, if_true,
      List.span_eq_take_drop, hspan.1, hspan.2]
    rfl

/-- The angle-bracket matcher succeeds on a well-shaped token. -/
theorem matchAngleAt_isSome (nm rest : List Char) (h : validNameB nm = true) :
    (matchAngleAt ('<' :: (nm ++ '>' :: rest))).isSome = true := by
  cases nm with
  | nil => cases h
  | cons c nm' =>
    simp only [validNameB, Bool.and_eq_true, List.all_eq_true] at h
    obtain ⟨hstart, hall⟩ := h
    have hspan := span_exact (fun d => isNameChar d) nm' '>' rest
      (fun x hx => hall x hx) (by decide)
    simp only [List.cons_append, matchAngleAt, hstart, if_true,
      List.span_eq_take_drop, hspan.1, hspan.2]
    rfl

/-- If a matcher succeeds at some (non-empty) suffix position, the scanner
emits at least one match. -/
theorem scanGo_ne_nil (m : List Char → Option (List Char × List Char)) :
    ∀ (fuel : Nat) (l : List Char), l.length ≤ fuel →
      (∃ pre suf, l = pre ++ suf ∧ (m suf).isSome = true ∧ suf ≠ []) →
      scanGo m fuel l ≠ [] := by
  intro fuel
  induction fuel with
  | zero =>
    intro l hlen ⟨pre, suf, hl, _, hsuf⟩
    have : l = [] := List.eq_nil_of_length_eq_zero (Nat.le_zero.mp hlen)
    subst this
    exact absurd (List.append_eq_nil.mp hl.symm).2 hsuf
  | succ fuel ih =>
    intro l hlen hocc
    obtain ⟨pre, suf, hl, hm, hsuf⟩ := hocc
    cases l with
    | nil => exact absurd (List.append_eq_nil.mp hl.symm).2 hsuf
    | cons c cs =>
      rw [scanGo]
      cases hmc : m (c :: cs) with
      | some pr =>
        rcases pr with ⟨tok, restl⟩
        simp only [hmc]
        split <;> simp
      | none =>
        simp only [hmc]
        cases pre with
        | nil =>
          simp only [List.nil_append] at hl
          rw [← hl, hmc] at hm
          cases hm
        | cons d pre' =>
          simp only [List.cons_append, List.cons.injEq] at hl
          exact ih cs (by simpa using hlen)
            ⟨pre', suf, hl.2, hm, hsuf⟩

/-- `scanMatches` version of `scanGo_ne_nil`. -/
theorem scanMatches_ne_nil (m : List Char → Option (List Char × List Char))
    (l : List Char)
    (hocc : ∃ pre suf, l = pre ++ suf ∧ (m suf).isSome = true ∧ suf ≠ []) :
    scanMatches m l ≠ [] :=
  scanGo_ne_nil m l.length l (Nat.le_refl _) hocc

/-- C5: L0 passes exactly when there are no blocking template hits;
`unresolved_count` counts the blocking hits; `placeholders_found` lists
blocking hits then informational marker hits; a line containing a
well-shaped `{{NAME}}` or `<NAME>` token forces a failure with
`unresolved_count ≥ 1`; and an input with no template matches on any line
(for example one with only TODO/FIXME/XXX markers) passes. -/
theorem C5_l0_placeholders (content : String) :
    ((validate_l0 content).passed = true
      ↔ (findPlaceholders content).filter isTemplateHit = [])
    ∧ (validate_l0 content).unresolved_count
        = ((findPlaceholders content).filter isTemplateHit).length
    ∧ (validate_l0 content).placeholders_found
        = ((findPlaceholders content).filter isTemplateHit).map (·.1)
          ++ ((findPlaceholders content).filter isMarkerHit).map (·.1)
    ∧ ((∃ l ∈ pySplitOn '\n' content.data, ∃ pre nm rest,
          validNameB nm = true ∧
          (l = pre ++ '\x7b' :: '\x7b' :: (nm ++ '\x7d' :: '\x7d' :: rest)
           ∨ l = pre ++ '<' :: (nm ++ '>' :: rest)))
        → (validate_l0 content).passed = false
          ∧ 1 ≤ (validate_l0 content).unresolved_count)
    ∧ ((∀ l ∈ pySplitOn '\n' content.data,
          scanMatches matchDoubleBraceAt l = [] ∧ scanMatches matchAngleAt l = [])
        → (validate_l0 content).passed = true) := by
  have hpassed : (validate_l0 content).passed
      = (((findPlaceholders content).filter isTemplateHit).length == 0) := by rfl
  have hcount : (validate_l0 content).unresolved_count
      = ((findPlaceholders content).filter isTemplateHit).length := by rfl
  have hiff : (validate_l0 content).passed = true
      ↔ (findPlaceholders content).filter isTemplateHit = [] := by
    rw [hpassed]
    simp [List.length_eq_zero]
  refine ⟨hiff, hcount, rfl, ?_, ?_⟩
  · rintro ⟨l, hlmem, pre, nm, rest, hnm, hshape⟩
    have hblock : ∃ hit ∈ (findPlaceholders content).filter isTemplateHit, True := by
      obtain ⟨i, hget⟩ := List.get?_of_mem hlmem
      -- pick the scanner that fires
      rcases hshape with hshape | hshape
      · have hscan : scanMatches matchDoubleBraceAt l ≠ [] := by
          apply scanMatches_ne_nil
          exact ⟨pre, _, hshape, matchDoubleBraceAt_isSome nm rest hnm, by simp⟩
        obtain ⟨t, ht⟩ := List.exists_mem_of_ne_nil _ hscan
        refine ⟨(String.mk t, "double_brace", 1 + i), ?_, trivial⟩
        rw [List.mem_filter]
        constructor
        · rw [findPlaceholders, mem_overLines]
          exact ⟨i, l, hget, by
            rw [List.mem_map]
            exact ⟨(String.mk t, "double_brace"), by
              simp only [linePlaceholders, List.mem_append]
              left; left; left; left
              exact List.mem_map.mpr ⟨t, ht, rfl⟩, rfl⟩⟩
        · simp [isTemplateHit]
      · have hscan : scanMatches matchAngleAt l ≠ [] := by
          apply scanMatches_ne_nil
          exact ⟨pre, _, hshape, matchAngleAt_isSome nm rest hnm, by simp⟩
        obtain ⟨t, ht⟩ := List.exists_mem_of_ne_nil _ hscan
        refine ⟨(String.mk t, "angle_bracket", 1 + i), ?_, trivial⟩
        rw [List.mem_filter]
        constructor
        · rw [findPlaceholders, mem_overLines]
          exact ⟨i, l, hget, by
            rw [List.mem_map]
            exact ⟨(String.mk t, "angle_bracket"), by
              simp only [linePlaceholders, List.mem_append]
              left; left; left; right
              exact List.mem_map.mpr ⟨t, ht, rfl⟩, rfl⟩⟩
        · simp [isTemplateHit]
    obtain ⟨hit, hhit, -⟩ := hblock
    have hne : (findPlaceholders content).filter isTemplateHit ≠ [] :=
      List.ne_nil_of_mem hhit
    constructor
    · rcases Bool.dichotomy (validate_l0 content).passed with hp | hp
      · exact hp
      · exact absurd (hiff.mp hp) hne
    · rw [hcount]
      exact List.length_pos.mpr hne
  · intro hall
    apply hiff.mpr
    apply List.filter_eq_nil_iff.mpr
    intro x hx
    rw [findPlaceholders, mem_overLines] at hx
    obtain ⟨i, line, hget, hx'⟩ := hx
    have hline : line ∈ pySplitOn '\n' content.data := List.get?_mem hget
    obtain ⟨hdb, hab⟩ := hall line hline
    rw [List.mem_map] at hx'
    obtain ⟨⟨t, ty⟩, hty, hxeq⟩ := hx'
    simp only [linePlaceholders, hdb, hab, List.map_nil, List.nil_append,
      List.mem_append] at hty
    subst hxeq
    rcases hty with (h | h) | h
    · rcases hm : findMarker "todo:".data line with _ | mt <;> rw [hm] at h <;>
        simp_all [isTemplateHit]
    · rcases hm : findMarker "fixme:".data line with _ | mt <;> rw [hm] at h <;>
        simp_all [isTemplateHit]
    · rcases hm : findMarker "xxx:".data line with _ | mt <;> rw [hm] at h <;>
        simp_all [isTemplateHit]

/-- Witness for C5 at scenario A's deck `"units lj\ntimestep {{TS}}"`. -/
theorem C5_l0_placeholders_witness :
    (validate_l0 "units lj\ntimestep \x7b\x7bTS\x7d\x7d").passed = false
    ∧ 1 ≤ (validate_l0 "units lj\ntimestep \x7b\x7bTS\x7d\x7d").unresolved_count :=
  (C5_l0_placeholders "units lj\ntimestep \x7b\x7bTS\x7d\x7d").2.2.2.1
    ⟨"timestep \x7b\x7bTS\x7d\x7d".data, by decide, "timestep ".data,
      ['T', 'S'], [], by decide, Or.inl (by decide)⟩

/-- Lower-casing never yields the letter `N`. -/
theorem lowerChar_ne_N (c : Char) : lowerChar c ≠ 'N' := by
  unfold lowerChar
  split <;> first | decide | assumption

/-- Lower-cased strings avoid the letter `N`. -/
theorem lowerStr_ne_N (s : String) : 'N' ∉ (lowerStr s).data := by
  simp only [lowerStr, lowerList]
  intro h
  rw [List.mem_map] at h
  obtain ⟨c, _, hc⟩ := h
  exact lowerChar_ne_N c hc

/-- Digit characters avoid the letter `N`. -/
theorem digitChar_ne_N (n : Nat) : digitChar n ≠ 'N' := by
  unfold digitChar
  split <;> decide

/-- Digit expansions avoid the letter `N`. -/
theorem natToStrGo_ne_N :
    ∀ (fuel n : Nat) (acc : List Char), 'N' ∉ acc → 'N' ∉ natToStrGo fuel n acc := by
  intro fuel
  induction fuel with
  | zero =>
    intro n acc hacc
    simp only [natToStrGo, List.mem_cons]
    rintro (h | h)
    · exact digitChar_ne_N n h.symm
    · exact hacc h
  | succ fuel ih =>
    intro n acc hacc
    rw [natToStrGo]
    split
    · simp only [List.mem_cons]
      rintro (h | h)
      · exact digitChar_ne_N n h.symm
      · exact hacc h
    · refine ih _ _ ?_
      simp only [List.mem_cons]
      rintro (h | h)
      · exact digitChar_ne_N n h.symm
      · exact hacc h

/-- Decimal renderings of naturals avoid the letter `N`. -/
theorem natToStr_ne_N (n : Nat) : 'N' ∉ (natToStr n).data :=
  natToStrGo_ne_N n n [] (by simp)

/-- Fractional digit expansions avoid the letter `N`. -/
theorem fracDigitsGo_ne_N : ∀ (k num den : Nat), 'N' ∉ fracDigitsGo k num den := by
  intro k
  induction k with
  | zero => intro num den; simp [fracDigitsGo]
  | succ k ih =>
    intro num den
    simp only [fracDigitsGo, List.mem_cons]
    rintro (h | h)
    · exact digitChar_ne_N _ h.symm
    · exact ih _ _ h

/-- Dropping trailing zeros keeps a subset of the characters. -/
theorem dropTrailingZeros_subset (l : List Char) : dropTrailingZeros l ⊆ l := by
  intro c hc
  simp only [dropTrailingZeros, List.mem_reverse] at hc
  have := (List.dropWhile_sublist (l := l.reverse) (p := (· = '0'))).subset hc
  simpa using this

/-- The decimal rendering of a fraction avoids the letter `N`. -/
theorem fmtQ_ne_N (q : Frac) : 'N' ∉ (fmtQ q).data := by
  unfold fmtQ
  simp only [String.data_append, List.append_assoc, List.mem_append]
  rintro (h | h | h | h)
  · split at h <;> simp_all
  · exact natToStr_ne_N _ h
  · simp_all
  · have h2 : 'N' ∈ (if (dropTrailingZeros
        (fracDigitsGo 12 (q.num.natAbs % q.den) q.den)).isEmpty = true then ['0']
        else dropTrailingZeros (fracDigitsGo 12 (q.num.natAbs % q.den) q.den)) := h
    split at h2
    · simp_all
    · exact fracDigitsGo_ne_N _ _ _ (dropTrailingZeros_subset _ h2)

/-- Appending strings that avoid `N` avoids `N`. -/
theorem ne_N_append (a b : String) (ha : 'N' ∉ a.data) (hb : 'N' ∉ b.data) :
    'N' ∉ (a ++ b).data := by
  rw [String.data_append]
  intro h
  rcases List.mem_append.mp h with h | h
  · exact ha h
  · exact hb h

/-- A pattern inside a middle chunk is an infix of the whole. -/
theorem infix_sandwich {α : Type} (A B m pat : List α) (h : pat <:+: m) :
    pat <:+: A ++ (m ++ B) := by
  obtain ⟨s, t, hst⟩ := h
  exact ⟨A ++ s, t ++ B, by rw [← hst]; simp [List.append_assoc]⟩

/-- Timestep warnings avoid the letter `N` whenever the unit-system text
does. -/
theorem checkTimestepPhysics_ne_N (t : Frac) (u : String) (hu : 'N' ∉ u.data) :
    ∀ w ∈ checkTimestepPhysics t u, 'N' ∉ w.data := by
  intro w hw
  unfold checkTimestepPhysics at hw
  rcases hr : timestepRanges u with _ | ⟨mn, mx⟩ <;> simp only [hr] at hw
  · cases hw
  · rcases Bool.dichotomy (t.lt mn) with h1 | h1
    · rcases Bool.dichotomy (mx.lt t) with h2 | h2
      · simp [h1, h2] at hw
      · simp [h1, h2] at hw
        subst hw
        exact ne_N_append _ _ (ne_N_append _ _ (ne_N_append _ _ (ne_N_append _ _
          (ne_N_append _ _ (ne_N_append _ _ (ne_N_append _ _ (ne_N_append _ _
            (by decide) (fmtQ_ne_N t)) (by decide)) hu) (by decide)) (fmtQ_ne_N mn))
          (by decide)) (fmtQ_ne_N mx)) (by decide)
    · simp [h1] at hw
      subst hw
      exact ne_N_append _ _ (ne_N_append _ _ (ne_N_append _ _ (ne_N_append _ _
        (ne_N_append _ _ (ne_N_append _ _ (ne_N_append _ _ (ne_N_append _ _
          (by decide) (fmtQ_ne_N t)) (by decide)) hu) (by decide)) (fmtQ_ne_N mn))
        (by decide)) (fmtQ_ne_N mx)) (by decide)

/-- Low/high temperature warnings avoid the letter `N` whenever the
context text does (negative temperatures excluded). -/
theorem temperatureWarning_ne_N (mn mx t : Frac) (n : Nat) (ctx : String)
    (hctx : 'N' ∉ ctx.data) (hneg : t.lt Frac.zero = false) :
    ∀ w ∈ temperatureWarning mn mx t n ctx, 'N' ∉ w.data := by
  intro w hw
  unfold temperatureWarning at hw
  rw [if_neg (by simp [hneg])] at hw
  rcases Bool.dichotomy (t.lt mn) with h1 | h1
  · rcases Bool.dichotomy (mx.lt t) with h2 | h2
    · simp [h1, h2] at hw
    · simp [h1, h2] at hw
      subst hw
      exact ne_N_append _ _ (ne_N_append _ _ (ne_N_append _ _ (ne_N_append _ _
        (ne_N_append _ _ (ne_N_append _ _ (ne_N_append _ _ (ne_N_append _ _
          (ne_N_append _ _ (ne_N_append _ _ (by decide) (natToStr_ne_N n))
            (by decide)) (fmtQ_ne_N t)) (by decide)) hctx) (by decide))
          (fmtQ_ne_N mn)) (by decide)) (fmtQ_ne_N mx)) (by decide)
  · simp [h1] at hw
    subst hw
    exact ne_N_append _ _ (ne_N_append _ _ (ne_N_append _ _ (ne_N_append _ _
      (ne_N_append _ _ (ne_N_append _ _ (ne_N_append _ _ (ne_N_append _ _
        (ne_N_append _ _ (ne_N_append _ _ (by decide) (natToStr_ne_N n))
          (by decide)) (fmtQ_ne_N t)) (by decide)) hctx) (by decide))
        (fmtQ_ne_N mn)) (by decide)) (fmtQ_ne_N mx)) (by decide)

/-- A parsed negative temperature puts its critical warning into the
physics check's output (when the unit system has a range table). -/
theorem checkTemperaturePhysics_neg (temps : List (Frac × Nat × String))
    (u : String) (mn mx t : Frac) (n : Nat) (ctx : String)
    (hr : temperatureRanges u = some (mn, mx))
    (hmem : (t, n, ctx) ∈ temps) (hneg : t.lt Frac.zero = true) :
    ("Line " ++ natToStr n ++ ": Negative temperature " ++ fmtQ t ++ " in " ++ ctx
      ++ ". Temperature must be positive.") ∈ checkTemperaturePhysics temps u := by
  unfold checkTemperaturePhysics
  simp only [hr]
  refine List.mem_flatMap.mpr ⟨(t, n, ctx), hmem, ?_⟩
  show _ ∈ temperatureWarning mn mx t n ctx
  unfold temperatureWarning
  rw [if_pos hneg]
  simp

/-- The critical warning contains the substring `Negative temperature`. -/
theorem negWarning_contains (t : Frac) (n : Nat) (ctx : String) :
    containsSub ("Line " ++ natToStr n ++ ": Negative temperature " ++ fmtQ t
      ++ " in " ++ ctx ++ ". Temperature must be positive.")
      "Negative temperature" = true := by
  simp only [containsSub, decide_eq_true_eq]
  have h := infix_sandwich ("Line ".data ++ (natToStr n).data)
    ((fmtQ t).data ++ (" in ".data ++ (ctx.data
      ++ ". Temperature must be positive.".data)))
    ": Negative temperature ".data "Negative temperature".data (by decide)
  simpa [String.data_append, List.append_assoc] using h

/-- Every valid unit system has a temperature range table. -/
theorem validUnits_temperatureRanges :
    ∀ u ∈ VALID_UNITS, (temperatureRanges u).isSome = true := by decide

/-- Parsed temperatures carry one of the three fixed context strings. -/
theorem parseTemperatures_ctx (content : String) (t : Frac) (n : Nat) (ctx : String)
    (h : (t, n, ctx) ∈ parseTemperatures content) :
    ctx = "fix temperature start" ∨ ctx = "fix temperature end"
      ∨ ctx = "velocity create" := by
  rw [parseTemperatures, mem_overLines] at h
  obtain ⟨i, line, -, h⟩ := h
  simp only [lineTemperatures] at h
  split at h
  · cases h
  · rw [List.mem_append] at h
    rcases h with h | h
    · split at h
      · rcases hs : searchTempPair (pyStrip line) with _ | ⟨t1, t2⟩
        · simp only [hs] at h
          exact absurd h (List.not_mem_nil _)
        · simp only [hs] at h
          rcases h1 : pyFloat t1 with _ | a
          · simp only [h1] at h
            exact absurd h (List.not_mem_nil _)
          · rcases h2 : pyFloat t2 with _ | b
            · simp only [h1, h2] at h
              exact absurd h (List.not_mem_nil _)
            · simp only [h1, h2, List.mem_cons, List.mem_singleton] at h
              rcases h with h | h | h
              · left; exact congrArg (fun p => p.2.2) h
              · right; left; exact congrArg (fun p => p.2.2) h
              · exact absurd h (List.not_mem_nil _)
      · cases h
    · split at h
      · rcases hs : searchVelocity (pyStrip line) with _ | tok
        · simp only [hs] at h
          exact absurd h (List.not_mem_nil _)
        · simp only [hs] at h
          rcases h1 : pyFloat tok with _ | a
          · simp only [h1] at h
            exact absurd h (List.not_mem_nil _)
          · simp only [h1, List.mem_singleton] at h
            right; right
            exact congrArg (fun p => p.2.2) h
      · cases h

/-- The active unit system never holds the letter `N` (it is lower-cased
or the default). -/
theorem activeUnits_ne_N (content : String) : 'N' ∉ (activeUnits content).data := by
  unfold activeUnits
  rcases hca : commandArgs content "units" with _ | args
  · decide
  · rcases args with _ | ⟨a, rest⟩
    · decide
    · exact lowerStr_ne_N a

/-- If the active unit system has no range table, the `units` argument
validation reports an error. -/
theorem units_error_of_ranges_none (content : String)
    (h : temperatureRanges (activeUnits content) = none) :
    ∃ msg, (match commandArgs content "units" with
      | some args => validateUnitsCommand args
      | none => none) = some msg := by
  rcases hca : commandArgs content "units" with _ | args
  · exfalso
    rw [activeUnits, hca] at h
    exact absurd h (by decide)
  · rcases args with _ | ⟨a, rest⟩
    · exfalso
      rw [activeUnits, hca] at h
      exact absurd h (by decide)
    · by_cases hmem : lowerStr a ∈ VALID_UNITS
      · exfalso
        have hsome := validUnits_temperatureRanges _ hmem
        rw [activeUnits, hca] at h
        rw [h] at hsome
        cases hsome
      · refine ⟨"Unknown unit system \x27" ++ lowerStr a
          ++ "\x27 - valid options: cgs, electron, lj, metal, micro, nano, real, si", ?_⟩
        simp only [validateUnitsCommand]
        rw [if_neg hmem]

/-- C6: L1 passes exactly when there are no syntax errors and no physics
warning holds the substring `Negative temperature`; every parsed negative
temperature flips `passed` to false; and with no syntax errors and no
parsed negative temperature, below/above-range temperature warnings and
timestep warnings never block passing. -/
theorem C6_l1_pass_condition (content : String) :
    ((validate_l1 content).passed = true ↔
      ((validate_l1 content).syntax_errors = []
        ∧ ∀ w ∈ (validate_l1 content).physics_warnings,
            containsSub w "Negative temperature" = false))
    ∧ (∀ t n ctx, (t, n, ctx) ∈ parseTemperatures content →
        t.lt Frac.zero = true → (validate_l1 content).passed = false)
    ∧ ((validate_l1 content).syntax_errors = [] →
        (∀ t n ctx, (t, n, ctx) ∈ parseTemperatures content →
          t.lt Frac.zero = false) →
        (validate_l1 content).passed = true) := by
  have hpassed : (validate_l1 content).passed
      = (((validate_l1 content).syntax_errors.length == 0)
        && ((((validate_l1 content).physics_warnings.filter
          fun w' => containsSub w' "Negative temperature").length == 0))) := by rfl
  have hpw : (validate_l1 content).physics_warnings
      = (match parseTimestep content with
         | some t => checkTimestepPhysics t (activeUnits content)
         | none => [])
        ++ checkTemperaturePhysics (parseTemperatures content) (activeUnits content) := by
    rfl
  have hse : (validate_l1 content).syntax_errors
      = checkRequiredCommands (commandsFound content)
        ++ checkStructureCommands (commandsFound content)
        ++ (match commandArgs content "units" with
            | some args => validateUnitsCommand args
            | none => none).toList
        ++ (match commandArgs content "atom_style" with
            | some args => validateAtomStyleCommand args
            | none => none).toList
        ++ ((checkCommonSyntaxErrors content).map
            fun p => "Line " ++ natToStr p.1 ++ ": " ++ p.2) := by rfl
  have hiff : (validate_l1 content).passed = true ↔
      ((validate_l1 content).syntax_errors = []
        ∧ ∀ w ∈ (validate_l1 content).physics_warnings,
            containsSub w "Negative temperature" = false) := by
    rw [hpassed]
    simp only [Bool.and_eq_true, beq_iff_eq, List.length_eq_zero,
      List.filter_eq_nil_iff]
    simp
  refine ⟨hiff, ?_, ?_⟩
  · intro t n ctx hmem hneg
    rcases Bool.dichotomy (validate_l1 content).passed with hp | hp
    · exact hp
    · exfalso
      obtain ⟨hse0, hall⟩ := hiff.mp hp
      rcases hr : temperatureRanges (activeUnits content) with _ | ⟨mn, mx⟩
      · obtain ⟨msg, hmsg⟩ := units_error_of_ranges_none content hr
        have hmemse : msg ∈ (validate_l1 content).syntax_errors := by
          rw [hse, hmsg]
          refine List.mem_append_left _ (List.mem_append_left _
            (List.mem_append_right _ ?_))
          simp
        rw [hse0] at hmemse
        cases hmemse
      · have hwmem := checkTemperaturePhysics_neg (parseTemperatures content)
          (activeUnits content) mn mx t n ctx hr hmem hneg
        have hwpw : ("Line " ++ natToStr n ++ ": Negative temperature " ++ fmtQ t
              ++ " in " ++ ctx ++ ". Temperature must be positive.")
            ∈ (validate_l1 content).physics_warnings := by
          rw [hpw]
          exact List.mem_append_right _ hwmem
        have := hall _ hwpw
        rw [negWarning_contains] at this
        cases this
  · intro hse0 hnoneg
    apply hiff.mpr
    refine ⟨hse0, ?_⟩
    intro w hw
    have hpatN : 'N' ∈ "Negative temperature".data := by decide
    have hfalse : 'N' ∉ w.data → containsSub w "Negative temperature" = false := by
      intro hN
      rcases Bool.dichotomy (containsSub w "Negative temperature") with hc | hc
      · exact hc
      · exfalso
        have hinf : "Negative temperature".data <:+: w.data := by
          simpa [containsSub] using hc
        exact hN (hinf.subset hpatN)
    rw [hpw, List.mem_append] at hw
    rcases hw with hw | hw
    · rcases hts : parseTimestep content with _ | tval <;> rw [hts] at hw
      · cases hw
      · exact hfalse (checkTimestepPhysics_ne_N tval _ (activeUnits_ne_N content) w hw)
    · unfold checkTemperaturePhysics at hw
      rcases hr : temperatureRanges (activeUnits content) with _ | ⟨mn, mx⟩ <;>
        simp only [hr] at hw
      · exact absurd hw (List.not_mem_nil _)
      · obtain ⟨⟨t', n', ctx'⟩, htm, hw'⟩ := List.mem_flatMap.mp hw
        have hw'' : w ∈ temperatureWarning mn mx t' n' ctx' := hw'
        have hctxN : 'N' ∉ ctx'.data := by
          rcases parseTemperatures_ctx content t' n' ctx' htm with h | h | h <;>
            subst h <;> decide
        exact hfalse (temperatureWarning_ne_N mn mx t' n' ctx' hctxN
          (hnoneg t' n' ctx' htm) w hw'')

/-- Writing a path into the filesystem map leaves every other path's
content unchanged. -/
theorem fsLookup_fsSet_ne (q v p : String) (h : p ≠ q) :
    ∀ fs, fsLookup (fsSet fs q v) p = fsLookup fs p := by
  have hd : (q = p) = False := eq_false fun hqp => h hqp.symm
  intro fs
  induction fs with
  | nil =>
    show fsLookup [(q, v)] p = fsLookup [] p
    simp [fsLookup, List.find?, hd]
  | cons e rest ih =>
    by_cases he : e.1 = q
    · rw [show fsSet (e :: rest) q v = (q, v) :: rest from by simp [fsSet, he]]
      have hep : (e.1 = p) = False := eq_false fun hx => h (hx.symm.trans he)
      simp only [fsLookup, List.find?, hd, hep, decide_False]
    · rw [show fsSet (e :: rest) q v = e :: fsSet rest q v from by simp [fsSet, he]]
      by_cases hp : e.1 = p
      · simp only [fsLookup, List.find?, hp, decide_True]
      · have hpf : (e.1 = p) = False := eq_false hp
        simp only [fsLookup, List.find?, hpf, decide_False]
        exact ih

/-- Equal lookups transfer existence. -/
theorem fsExists_of_lookup_eq (fs fs' : List (String × String)) (p : String)
    (h : fsLookup fs' p = fsLookup fs p) (hex : fsExists fs p = true) :
    fsExists fs' p = true := by
  unfold fsExists at *
  rw [h]; exact hex

/-- One unreferenced-context copy step never changes the content of a
pre-existing file (it only writes to non-existing destinations). -/
theorem cuStep_preserves (wd cf p : String) (fs : List (String × String))
    (hex : fsExists fs p = true) :
    fsLookup (cuStep wd fs cf) p = fsLookup fs p := by
  unfold cuStep
  by_cases h1 : fsExists fs cf
  · rw [if_pos h1]
    by_cases h2 : fsExists fs (joinPath wd (baseName cf))
    · rw [if_pos h2]
    · rw [if_neg h2]
      rcases hl : fsLookup fs cf with _ | c
      · simp only [hl]
      · simp only [hl]
        have hne : p ≠ joinPath wd (baseName cf) := by
          intro hpe
          rw [hpe] at hex
          exact h2 hex
        exact fsLookup_fsSet_ne _ _ _ hne fs
  · rw [if_neg h1]

/-- The whole unreferenced-context copy phase preserves every pre-existing
file. -/
theorem copyUnreferenced_preserves (p : String) :
    ∀ (ctxs : List String) (wd : String) (fs : List (String × String)),
      fsExists fs p = true →
      fsLookup (copyUnreferencedPhase ctxs wd fs) p = fsLookup fs p := by
  intro ctxs
  induction ctxs with
  | nil => intro _ fs _; rfl
  | cons cf rest ih =>
    intro wd fs h
    have hstep := cuStep_preserves wd cf p fs h
    have hex' := fsExists_of_lookup_eq fs _ p hstep h
    calc fsLookup (copyUnreferencedPhase (cf :: rest) wd fs) p
        = fsLookup (copyUnreferencedPhase rest wd (cuStep wd fs cf)) p := rfl
      _ = fsLookup (cuStep wd fs cf) p := ih wd _ hex'
      _ = fsLookup fs p := hstep

/-- The referenced-file copy phase only ever writes to the destinations
`working_dir / dest_name ref`; any other path keeps its content. -/
theorem refFold_preserves (ctxs : List String) (wd p : String) :
    ∀ (refs : List String),
      (∀ ref ∈ refs, p ≠ joinPath wd (if isAbsolutePath ref then baseName ref else ref)) →
      ∀ st, fsLookup (refs.foldl (refCopyStep ctxs wd) st).1 p = fsLookup st.1 p := by
  intro refs
  induction refs with
  | nil => intro _ st; rfl
  | cons ref rest ih =>
    intro hA st
    have hstep : fsLookup (refCopyStep ctxs wd st ref).1 p = fsLookup st.1 p := by
      unfold refCopyStep
      by_cases h1 : ref ∈ st.2
      · rw [if_pos h1]
      · rw [if_neg h1]
        rcases hf : find_file_in_context ref ctxs st.1 with _ | sp
        · simp only [hf]
        · simp only [hf]
          by_cases h2 : sp ≠ joinPath wd (if isAbsolutePath ref then baseName ref else ref)
          · rw [if_pos h2]
            rcases hl : fsLookup st.1 sp with _ | c
            · simp only [hl]
            · simp only [hl]
              exact fsLookup_fsSet_ne _ _ _ (hA ref (List.mem_cons_self _ _)) st.1
          · rw [if_neg h2]
    calc fsLookup ((ref :: rest).foldl (refCopyStep ctxs wd) st).1 p
        = fsLookup (rest.foldl (refCopyStep ctxs wd) (refCopyStep ctxs wd st ref)).1 p := rfl
      _ = fsLookup (refCopyStep ctxs wd st ref).1 p :=
          ih (fun r hr => hA r (List.mem_cons_of_mem _ hr)) _
      _ = fsLookup st.1 p := hstep

/-- C8 counterexample: a pre-existing file inside the working directory,
`wd/data.file` with content `old`, is overwritten by the referenced-file
copy phase of `setup_working_directory` (the source `ctx/data.file` is
copied over it with no existence check), refuting the claim that
pre-existing destination files are never overwritten. -/
theorem C8_overwrite_counterexample :
    fsLookup [("ctx/data.file", "source"), ("wd/data.file", "old")] "wd/data.file"
        = some "old"
    ∧ fsLookup (setup_working_directory "read_data data.file" ["ctx/data.file"] "wd"
        [("ctx/data.file", "source"), ("wd/data.file", "old")]).1 "wd/data.file"
        = some "source" :=
  ⟨by rfl, by rfl⟩

/-- C8 (amended): only the unreferenced-context copy phase of
`setup_working_directory` never overwrites a pre-existing file; the deck
write and the referenced-file copies do overwrite their destinations, and
every pre-existing file other than the deck path and the referenced-copy
destinations keeps its content across the whole call. -/
theorem C8_overwrite_discipline (deck_content : String) (context_files : List String)
    (working_dir : String) (fs : List (String × String)) (deck_filename p : String)
    (hex : fsExists fs p = true) :
    fsLookup (copyUnreferencedPhase context_files working_dir fs) p = fsLookup fs p
    ∧ (p ≠ joinPath working_dir deck_filename →
       (∀ ref ∈ parse_file_references deck_content,
         p ≠ joinPath working_dir (if isAbsolutePath ref then baseName ref else ref)) →
       fsLookup (setup_working_directory deck_content context_files working_dir fs
         deck_filename).1 p = fsLookup fs p) := by
  refine ⟨copyUnreferenced_preserves p context_files working_dir fs hex, ?_⟩
  intro hdeck hrefs
  have h1 : fsLookup (fsSet fs (joinPath working_dir deck_filename) deck_content) p
      = fsLookup fs p := fsLookup_fsSet_ne _ _ _ hdeck fs
  have h2 := refFold_preserves context_files working_dir p
    (parse_file_references deck_content) hrefs
    (fsSet fs (joinPath working_dir deck_filename) deck_content, [])
  have hex2 := fsExists_of_lookup_eq fs _ p (h2.trans h1) hex
  rw [show (setup_working_directory deck_content context_files working_dir fs
        deck_filename).1
      = copyUnreferencedPhase context_files working_dir
        ((parse_file_references deck_content).foldl
          (refCopyStep context_files working_dir)
          (fsSet fs (joinPath working_dir deck_filename) deck_content, [])).1 from rfl]
  exact (copyUnreferenced_preserves p context_files working_dir _ hex2).trans
    (h2.trans h1)

/-- Witness for the amended C8 theorem at a deck with no file references
and a context file outside the working directory. -/
theorem C8_overwrite_discipline_witness :
    fsLookup (copyUnreferencedPhase ["a/b.txt"] "wd" [("a/b.txt", "keep")]) "a/b.txt"
        = some "keep"
    ∧ fsLookup (setup_working_directory "units lj" ["a/b.txt"] "wd"
        [("a/b.txt", "keep")] "input.lammps").1 "a/b.txt" = some "keep" := by
  have h := C8_overwrite_discipline "units lj" ["a/b.txt"] "wd"
    [("a/b.txt", "keep")] "input.lammps" "a/b.txt" (by rfl)
  refine ⟨h.1.trans (by rfl), (h.2 (by decide) ?_).trans (by rfl)⟩
  intro ref hr
  rw [show parse_file_references "units lj" = [] from rfl] at hr
  cases hr

/-- Witness for C6 at scenario B's deck with `velocity all create -100.0`. -/
theorem C6_l1_pass_condition_witness :
    (validate_l1 "units lj\natom_style atomic\ncreate_box 1 b\nvelocity all create -100.0 87287").passed
      = false :=
  (C6_l1_pass_condition
      "units lj\natom_style atomic\ncreate_box 1 b\nvelocity all create -100.0 87287").2.1
    ⟨-1000, 10⟩ 4 "velocity create" (by decide) (by decide)

end Reaper
